import Mathlib

/-!
Verification development for the MindScript compiler/VM pipeline
(robert-cronin/mindscript-go).

The Go sources are embedded shallowly:

* Go strings are `List Char`, one `Char` per byte (all inputs considered
  here are ASCII / Latin-1, matching the byte-oriented lexer).
* Go `int` is `Int`; arithmetic that can overflow is wrapped to the
  64-bit two's-complement range with `goWrap`.
* Go `float64` is modelled as `Rat`: the development only reasons about
  the type tags of float values and zero tests, never about rounding,
  and IEEE-754 rounding is abstracted as exact rational arithmetic.
* Go loops are compiled to fuel-indexed structural recursions; the fuel
  supplied by each wrapper is a bound derived from the loop's progress
  measure (the lexer cursor strictly advances on every iteration, so
  `input.length + 1` iterations always suffice).
* Fallible Go code returns `Except`; a Go `panic` (including runtime
  panics: nil dereference, slice index out of range, failed interface
  type assertion) is an `Except.error` carrying a `GoPanic`.
-/

/-- A Go panic, as distinguished from an error value that a Go function
returns.  `indexOutOfRange` is the runtime panic raised by an
out-of-bounds slice access, `nilDeref` the runtime panic raised by
dereferencing a nil pointer, and `panicMsg` an explicit `panic(msg)` or
failed interface type assertion. -/
inductive GoPanic where
  | indexOutOfRange : Int → GoPanic
  | nilDeref : GoPanic
  | panicMsg : String → GoPanic
  deriving DecidableEq, Repr

/-- Go slice read `xs[i]` with `i` a Go `int`: out-of-bounds access is a
runtime panic, not an error value. -/
def goSliceGet (xs : List α) (i : Int) : Except GoPanic α :=
  if h : 0 ≤ i ∧ i < (xs.length : Int) then
    .ok (xs.get ⟨i.toNat, by omega⟩)
  else
    .error (.indexOutOfRange i)

/-- Go slice write `xs[i] = v`, panicking out of bounds like `goSliceGet`. -/
def goSliceSet (xs : List α) (i : Int) (v : α) : Except GoPanic (List α) :=
  if 0 ≤ i ∧ i < (xs.length : Int) then
    .ok (xs.set i.toNat v)
  else
    .error (.indexOutOfRange i)

/-- Two's-complement wrap-around of Go 64-bit `int` arithmetic (`%` on
`Int` is the Euclidean remainder, non-negative for this modulus). -/
def goWrap (x : Int) : Int :=
  (x + 2 ^ 63) % 2 ^ 64 - 2 ^ 63

/-- Go truncated integer division (`x / y` rounds toward zero), wrapped
like all Go `int` arithmetic. -/
def goIntDiv (x y : Int) : Int :=
  goWrap (Int.tdiv x y)

namespace lexer

/-- The NUL byte the Go lexer uses as its end-of-input sentinel. -/
def charZero : Char := Char.ofNat 0

/-- `unicode.IsDigit(rune(b))` for a byte `b`: among code points 0–255
only the ASCII digits are in category Nd. -/
def goIsDigit (c : Char) : Bool :=
  48 ≤ c.toNat && c.toNat ≤ 57

/-- `unicode.IsLetter(rune(b))` for a byte `b`: the ASCII letters plus
the Latin-1 letters (ªµº, À–Ö, Ø–ö, ø–ÿ). -/
def goIsLetter (c : Char) : Bool :=
  (65 ≤ c.toNat && c.toNat ≤ 90) || (97 ≤ c.toNat && c.toNat ≤ 122) ||
  c.toNat == 0xAA || c.toNat == 0xB5 || c.toNat == 0xBA ||
  (0xC0 ≤ c.toNat && c.toNat ≤ 0xD6) || (0xD8 ≤ c.toNat && c.toNat ≤ 0xF6) ||
  (0xF8 ≤ c.toNat && c.toNat ≤ 0xFF)

/-- `skipWhitespace` loop guard: space, tab, newline, carriage return. -/
def isWS (c : Char) : Bool :=
  c == ' ' || c == '\t' || c == '\n' || c == '\r'

/-- Token kinds are Go strings (`type TokenType string`); the zero value
is the empty string, which is what an unrecognized byte produces. -/
abbrev TokenType := String

def IDENT : TokenType := "IDENT"
def LBRACE : TokenType := "LBRACE"
def RBRACE : TokenType := "RBRACE"
def LPAREN : TokenType := "LPAREN"
def RPAREN : TokenType := "RPAREN"
def LBRACKET : TokenType := "LBRACKET"
def RBRACKET : TokenType := "RBRACKET"
def COLON : TokenType := "COLON"
def SEMICOLON : TokenType := "SEMICOLON"
def COMMA : TokenType := "COMMA"
def PLUS : TokenType := "PLUS"
def MINUS : TokenType := "MINUS"
def ASTERISK : TokenType := "ASTERISK"
def SLASH : TokenType := "SLASH"
def ASSIGN : TokenType := "ASSIGN"
def GT : TokenType := "GT"
def LT : TokenType := "LT"
def EQ : TokenType := "EQ"
def AND : TokenType := "AND"
def OR : TokenType := "OR"
def AGENT : TokenType := "AGENT"
def ON : TokenType := "ON"
def VAR : TokenType := "VAR"
def RETURN : TokenType := "RETURN"
def GOAL : TokenType := "GOAL"
def CAPABILITIES : TokenType := "CAPABILITIES"
def BEHAVIOR : TokenType := "BEHAVIOR"
def FUNCTION : TokenType := "FUNCTION"
def EOF : TokenType := "EOF"
def STRING : TokenType := "STRING"
def INT : TokenType := "INT"
def FLOAT : TokenType := "FLOAT"
def BOOL : TokenType := "BOOL"

/-- The `keywords` map of the lexer. -/
def keywords : List (String × TokenType) :=
  [("agent", AGENT), ("goal", GOAL), ("capabilities", CAPABILITIES),
   ("behavior", BEHAVIOR), ("function", FUNCTION), ("on", ON),
   ("var", VAR), ("int", INT), ("float", FLOAT), ("string", STRING),
   ("bool", BOOL), ("return", RETURN)]

/-- `lexer.Token`: kind, raw literal, starting byte offset. -/
structure Token where
  typ : TokenType
  literal : String
  loc : Nat
  deriving DecidableEq, Repr

/-- The zero value of `lexer.Token`. -/
def zeroToken : Token := { typ := "", literal := "", loc := 0 }

/-- `lexer.Lexer`: the input bytes plus the cursor state.  `ch` caches
the byte at `position` (or NUL past the end), `readPosition` is the next
byte to read. -/
structure Lexer where
  input : List Char
  position : Nat
  readPosition : Nat
  ch : Char
  deriving DecidableEq, Repr

/-- `readChar`: load the byte at `readPosition` (NUL past the end) and
advance the cursor. -/
def readChar (l : Lexer) : Lexer :=
  { l with
    ch := if l.readPosition ≥ l.input.length then charZero
          else l.input.getD l.readPosition charZero
    position := l.readPosition
    readPosition := l.readPosition + 1 }

/-- `lexer.New`: start from the zero-valued cursor and read one byte. -/
def New (input : List Char) : Lexer :=
  readChar { input := input, position := 0, readPosition := 0, ch := charZero }

/-- `peekChar` (via `peekCharOffset(0)`): the byte at `readPosition`,
or NUL when `readPosition` is past the end. -/
def peekChar (l : Lexer) : Char :=
  if l.readPosition ≥ l.input.length then charZero
  else l.input.getD l.readPosition charZero

/-- Go slice expression `l.input[a:b]` as a string. -/
def slice (input : List Char) (a b : Nat) : String :=
  String.mk ((input.drop a).take (b - a))

/-- Fuel-indexed `skipWhitespace` loop body. -/
def skipWhitespaceF : Nat → Lexer → Lexer
  | 0, l => l
  | fuel + 1, l => if isWS l.ch then skipWhitespaceF fuel (readChar l) else l

/-- `skipWhitespace`.  Each iteration advances `position`, and the byte
at any position ≥ `input.length` is NUL (never whitespace), so
`input.length + 1` iterations always suffice. -/
def skipWhitespace (l : Lexer) : Lexer :=
  skipWhitespaceF (l.input.length + 1) l

/-- Fuel-indexed `readInt` loop body. -/
def readIntF : Nat → Lexer → Lexer
  | 0, l => l
  | fuel + 1, l => if goIsDigit l.ch then readIntF fuel (readChar l) else l

/-- `readInt`: consume the digit run and return the consumed slice. -/
def readInt (l : Lexer) : String × Lexer :=
  let l' := readIntF (l.input.length + 1) l
  (slice l.input l.position l'.position, l')

/-- Fuel-indexed `readFloat` loop body (consumes digits and dots). -/
def readFloatF : Nat → Lexer → Lexer
  | 0, l => l
  | fuel + 1, l =>
      if goIsDigit l.ch || l.ch == '.' then readFloatF fuel (readChar l) else l

/-- `readFloat`: consume the run of digits and dots, returning the slice. -/
def readFloat (l : Lexer) : String × Lexer :=
  let l' := readFloatF (l.input.length + 1) l
  (slice l.input l.position l'.position, l')

/-- Fuel-indexed `readIdentifier` loop body. -/
def readIdentifierF : Nat → Lexer → Lexer
  | 0, l => l
  | fuel + 1, l => if goIsLetter l.ch then readIdentifierF fuel (readChar l) else l

/-- `readIdentifier`: consume the letter run, returning the slice. -/
def readIdentifier (l : Lexer) : String × Lexer :=
  let l' := readIdentifierF (l.input.length + 1) l
  (slice l.input l.position l'.position, l')

/-- Fuel-indexed `readString` loop body: a do-while that reads a byte and
stops after a closing quote or the NUL sentinel. -/
def readStringF : Nat → Lexer → Lexer
  | 0, l => l
  | fuel + 1, l =>
      if (readChar l).ch == '"' || (readChar l).ch == charZero then readChar l
      else readStringF fuel (readChar l)

/-- `readString`: the slice strictly between the opening quote and the
terminating quote (or end of input). -/
def readString (l : Lexer) : String × Lexer :=
  let l' := readStringF (l.input.length + 1) l
  (slice l.input (l.position + 1) l'.position, l')

/-- Build the single-character token of the punctuation/operator cases. -/
def charToken (t : TokenType) (l : Lexer) : Token :=
  { typ := t, literal := String.mk [l.ch], loc := l.position }

/-- The `switch` of `NextToken`, operating on the cursor state after
`skipWhitespace`.  The Go `switch` on `l.ch` is rendered as an if-chain
over the same disjoint cases; every branch mutates the lexer exactly as
the source does (note that the literal branches overwrite `tok.Loc`
with the position *after* the consumed run, as the source does). -/
def nextTokenAfterWS (l : Lexer) : Token × Lexer :=
  if l.ch = '{' then (charToken LBRACE l, readChar l)
  else if l.ch = '}' then (charToken RBRACE l, readChar l)
  else if l.ch = '(' then (charToken LPAREN l, readChar l)
  else if l.ch = ')' then (charToken RPAREN l, readChar l)
  else if l.ch = '[' then (charToken LBRACKET l, readChar l)
  else if l.ch = ']' then (charToken RBRACKET l, readChar l)
  else if l.ch = ':' then (charToken COLON l, readChar l)
  else if l.ch = ';' then (charToken SEMICOLON l, readChar l)
  else if l.ch = ',' then (charToken COMMA l, readChar l)
  else if l.ch = '+' then (charToken PLUS l, readChar l)
  else if l.ch = '-' then (charToken MINUS l, readChar l)
  else if l.ch = '*' then (charToken ASTERISK l, readChar l)
  else if l.ch = '/' then (charToken SLASH l, readChar l)
  else if l.ch = '=' then (charToken ASSIGN l, readChar l)
  else if l.ch = '>' then (charToken GT l, readChar l)
  else if l.ch = '<' then (charToken LT l, readChar l)
  else if l.ch = '&' then (charToken AND l, readChar l)
  else if l.ch = '|' then (charToken OR l, readChar l)
  else if l.ch = '"' then
    let (s, l') := readString l
    ({ typ := STRING, literal := s, loc := l'.position }, readChar l')
  else if l.ch = charZero then
    ({ typ := EOF, literal := "EOF", loc := l.position }, readChar l)
  else if goIsDigit l.ch then
    if peekChar l = '.' then
      let (s, l') := readFloat l
      ({ typ := FLOAT, literal := s, loc := l'.position }, l')
    else
      let (s, l') := readInt l
      ({ typ := INT, literal := s, loc := l'.position }, l')
  else if goIsLetter l.ch then
    let (s, l') := readIdentifier l
    let t := match keywords.lookup s with
      | some kw => kw
      | none => IDENT
    ({ typ := t, literal := s, loc := l'.position }, l')
  else
    ({ typ := "", literal := "", loc := l.position }, readChar l)

/-- `NextToken`: skip whitespace, then dispatch on the current byte. -/
def NextToken (l : Lexer) : Token × Lexer :=
  nextTokenAfterWS (skipWhitespace l)

/-- `Line`: 1 plus the number of newlines in the input prefix ending at
the token's byte offset. -/
def lineOf (input : List Char) (loc : Nat) : Nat :=
  1 + (input.take loc).count '\n'

/-- The `k`-th token (0-based) produced by repeated `NextToken` calls. -/
def tokStream (l : Lexer) : Nat → Token
  | 0 => (NextToken l).1
  | k + 1 => tokStream (NextToken l).2 k

/-- The lexer state after `k` calls to `NextToken`. -/
def stateStream (l : Lexer) : Nat → Lexer
  | 0 => l
  | k + 1 => stateStream (NextToken l).2 k

/-- The cursor invariant every state reachable from `New` satisfies:
`readPosition` is one past `position`, and `ch` caches the byte at
`position` (the NUL sentinel past the end).  It is established by
`readChar` — the only operation that moves the cursor —
unconditionally. -/
def ChInv (l : Lexer) : Prop :=
  l.readPosition = l.position + 1 ∧ l.ch = l.input.getD l.position charZero

instance (l : Lexer) : Decidable (ChInv l) := by
  unfold ChInv
  exact inferInstance

/-- The input contains no NUL byte (so the `ch = 0` sentinel means the
true end of the input). -/
def NoNul (input : List Char) : Prop :=
  ∀ c ∈ input, c ≠ charZero

instance (input : List Char) : Decidable (NoNul input) :=
  List.decidableBAll _ input

end lexer


namespace parser

/-!
The AST.  `src/pkg/parser/ast.go` contains the node structs built by the
parser; the semantic analyzer and code generator additionally consume
the node types `ExpressionStatement`, `ReturnStatement`,
`CallExpression` and `FunctionArgument`, whose declarations are not
under `src/` (only their users are).  Those four are modelled from the
spec, §3.2: `ExpressionStmt: Expression`, `ReturnStmt: Expression`,
`Call(callee-identifier, arg-expressions)`, and
`FunctionDecl: name, ordered list of (argName, argType), return type,
body`, with every node carrying its originating token.  Go pointer
fields become `Option`; Go interface values holding a nil pointer (the
`Statement` returned for a failed `var` parse) are a constructor applied
to `none`.
-/

/-- `parser.Identifier`. -/
structure Identifier where
  token : lexer.Token
  value : String
  deriving DecidableEq, Repr

/-- `parser.DataType` (its `TokenLiteral` is `token.literal`). -/
structure DataType where
  token : lexer.Token
  deriving DecidableEq, Repr

/-- `parser.Goal`. -/
structure Goal where
  token : lexer.Token
  value : String
  deriving DecidableEq, Repr

/-- `parser.Capabilities`. -/
structure Capabilities where
  token : lexer.Token
  values : List String
  deriving DecidableEq, Repr

/-- `parser.Event`. -/
structure Event where
  token : lexer.Token
  name : Option Identifier
  deriving DecidableEq, Repr

/-- `parser.FunctionArgument` — modelled from the spec (declaration not
under `src/`): an argument name together with its declared type, both
behind pointers, as used by `analyseStatement` (`arg.Name.Value`,
`arg.Type.TokenLiteral()`). -/
structure FunctionArgument where
  name : Option Identifier
  typ : Option DataType
  deriving DecidableEq, Repr

/-- `parser.Expression`, as a closed sum of the concrete node types.
`CallExpression` is modelled from the spec (declaration not under
`src/`): a token, a pointer to the callee expression, and pointers to
the argument expressions. -/
inductive Expression where
  | IdentifierLiteral (token : lexer.Token) (value : String)
  | IntegerLiteral (token : lexer.Token) (value : Int)
  | FloatLiteral (token : lexer.Token) (value : Rat)
  | StringLiteral (token : lexer.Token) (value : String)
  | BooleanLiteral (token : lexer.Token) (value : Bool)
  | InfixExpression (token : lexer.Token) (left : Expression)
      (operator : lexer.Token) (right : Expression)
  | CallExpression (token : lexer.Token) (function : Option Expression)
      (arguments : List (Option Expression))
  deriving Repr

/-- `parser.VarStatement`. -/
structure VarStatement where
  token : lexer.Token
  name : Option Identifier
  typ : Option DataType
  value : Option Expression
  deriving Repr

/-- `parser.ExpressionStatement` — modelled from the spec (declaration
not under `src/`): a statement wrapping a pointer to an expression. -/
structure ExpressionStatement where
  token : lexer.Token
  expression : Option Expression
  deriving Repr

/-- `parser.ReturnStatement` — modelled from the spec (declaration not
under `src/`): a statement wrapping a pointer to the returned
expression (`s.Value` in the analyzer and code generator). -/
structure ReturnStatement where
  token : lexer.Token
  value : Option Expression
  deriving Repr

mutual

/-- `parser.Statement`, the interface, as a closed sum.  Each
constructor holds the possibly-nil pointer the Go interface value would
hold; `VarStatement none` is the non-nil interface wrapping a nil
`*VarStatement` that `parseStatement` produces when `parseVarStatement`
fails. -/
inductive Statement where
  | AgentStatement : Option AgentStatement → Statement
  | VarStatement : Option VarStatement → Statement
  | Function : Option Function → Statement
  | ExpressionStatement : Option ExpressionStatement → Statement
  | ReturnStatement : Option ReturnStatement → Statement
  | BlockStatement : Option BlockStatement → Statement

/-- `parser.BlockStatement`: its statement list holds pointers to
statements (dereferenced by the analyzer and code generator). -/
inductive BlockStatement where
  | mk : lexer.Token → List (Option Statement) → BlockStatement

/-- The agent declaration node (named `Agent` in `src/pkg/parser/ast.go`
and `AgentStatement` in the analyzer/code generator iteration; one type
models both). -/
inductive AgentStatement where
  | mk : lexer.Token → Option Identifier → Option Goal → Option Capabilities →
      List (Option Behavior) → List (Option Function) → AgentStatement

/-- `parser.Behavior`: a list of event handlers. -/
inductive Behavior where
  | mk : lexer.Token → List (Option EventHandler) → Behavior

/-- `parser.EventHandler`: an event and a handler body. -/
inductive EventHandler where
  | mk : lexer.Token → Option Event → Option BlockStatement → EventHandler

/-- The function declaration node.  `src/` holds two iterations of this
type: the parser builds the older shape (`parameters` as identifiers and
the return type as a raw literal string), while the analyzer and code
generator consume the newer shape (`arguments` as typed
`FunctionArgument`s and the return type as a node, per spec §3.2).  The
model carries both field sets; each component uses exactly the fields
its source uses, and the fields of the other iteration stay at their Go
zero values. -/
inductive Function where
  | mk : (token : lexer.Token) → (name : Option Identifier) →
      (parameters : List Identifier) → (returnTypeLiteral : String) →
      (arguments : List (Option FunctionArgument)) →
      (returnType : Option DataType) →
      (body : Option BlockStatement) → Function

end

/-- Field accessor for `AgentStatement`. -/
def AgentStatement.name : AgentStatement → Option Identifier
  | .mk _ n _ _ _ _ => n

/-- Field accessor for `AgentStatement`. -/
def AgentStatement.goal : AgentStatement → Option Goal
  | .mk _ _ g _ _ _ => g

/-- Field accessor for `AgentStatement`. -/
def AgentStatement.capabilities : AgentStatement → Option Capabilities
  | .mk _ _ _ c _ _ => c

/-- Field accessor for `AgentStatement`. -/
def AgentStatement.behaviors : AgentStatement → List (Option Behavior)
  | .mk _ _ _ _ bs _ => bs

/-- Field accessor for `AgentStatement`. -/
def AgentStatement.functions : AgentStatement → List (Option Function)
  | .mk _ _ _ _ _ fs => fs

/-- Field accessor for `Behavior`. -/
def Behavior.eventHandlers : Behavior → List (Option EventHandler)
  | .mk _ hs => hs

/-- Field accessor for `EventHandler`. -/
def EventHandler.event : EventHandler → Option Event
  | .mk _ e _ => e

/-- Field accessor for `EventHandler`. -/
def EventHandler.blockStatement : EventHandler → Option BlockStatement
  | .mk _ _ b => b

/-- Field accessor for `BlockStatement`. -/
def BlockStatement.statements : BlockStatement → List (Option Statement)
  | .mk _ ss => ss

/-- Field accessor for `Function`. -/
def Function.name : Function → Option Identifier
  | .mk _ n _ _ _ _ _ => n

/-- Field accessor for `Function`. -/
def Function.arguments : Function → List (Option FunctionArgument)
  | .mk _ _ _ _ args _ _ => args

/-- Field accessor for `Function`. -/
def Function.returnType : Function → Option DataType
  | .mk _ _ _ _ _ rt _ => rt

/-- Field accessor for `Function`. -/
def Function.body : Function → Option BlockStatement
  | .mk _ _ _ _ _ _ b => b

/-- `parser.Program`. -/
structure Program where
  statements : List Statement

/-- `parser.Parser`: the lexer plus the two-token lookahead window. -/
structure Parser where
  l : lexer.Lexer
  curToken : lexer.Token
  peekToken : lexer.Token
  deriving Repr

/-- `p.nextToken()`: shift the lookahead window by one lexer token. -/
def nextTokenP (p : Parser) : Parser :=
  let (tok, l') := lexer.NextToken p.l
  { l := l', curToken := p.peekToken, peekToken := tok }

/-- `parser.New`: read two tokens so both `curToken` and `peekToken`
are set. -/
def New (l : lexer.Lexer) : Parser :=
  nextTokenP (nextTokenP
    { l := l, curToken := lexer.zeroToken, peekToken := lexer.zeroToken })

/-- `p.curTokenIs(t)`. -/
def curTokenIs (p : Parser) (t : lexer.TokenType) : Bool :=
  p.curToken.typ == t

/-- `p.peekTokenIs(t)`. -/
def peekTokenIs (p : Parser) (t : lexer.TokenType) : Bool :=
  p.peekToken.typ == t

/-- `p.expectPeek(t)`: advance on a match, report whether it matched. -/
def expectPeek (p : Parser) (t : lexer.TokenType) : Bool × Parser :=
  if peekTokenIs p t then (true, nextTokenP p) else (false, p)

/-- `strconv.ParseInt(s, 0, 64)` on the digit-run literals the lexer
produces: base 10, except that a leading `0` on a longer literal selects
base 8 (rejecting digits 8 and 9); values exceeding the 64-bit signed
range are a range error (`none`). -/
def digitsVal (base : Nat) : List Char → Option Nat → Option Nat
  | _, none => none
  | [], acc => acc
  | c :: cs, some acc =>
      let d := c.toNat - 48
      if 48 ≤ c.toNat ∧ d < base then digitsVal base cs (some (acc * base + d))
      else none

/-- See `digitsVal`; the entry point mirroring `strconv.ParseInt` on the
lexer's integer literals. -/
def goParseInt (s : String) : Option Int :=
  let val := match s.data with
    | [] => none
    | ['0'] => some 0
    | '0' :: rest => digitsVal 8 rest (some 0)
    | cs => digitsVal 10 cs (some 0)
  match val with
  | none => none
  | some n => if n ≤ 2 ^ 63 - 1 then some (n : Int) else none

/-- `strconv.ParseFloat(s, 64)` on the digit-and-dot runs the lexer
produces: at most one dot, digits elsewhere.  The resulting value is
the exact rational (IEEE-754 rounding and overflow are abstracted; no
claim depends on float values). -/
def goParseFloat (s : String) : Option Rat :=
  match s.data.splitOn '.' with
  | [intPart] =>
      (digitsVal 10 intPart (some 0)).map (fun n => (n : Rat))
  | [intPart, fracPart] =>
      if intPart.isEmpty ∧ fracPart.isEmpty then none
      else
        match digitsVal 10 intPart (some 0), digitsVal 10 fracPart (some 0) with
        | some i, some f => some ((i : Rat) + (f : Rat) / ((10 : Rat) ^ fracPart.length))
        | _, _ => none
  | _ => none

/-- `strconv.ParseBool`. -/
def goParseBool (s : String) : Option Bool :=
  if s ∈ ["1", "t", "T", "TRUE", "true", "True"] then some true
  else if s ∈ ["0", "f", "F", "FALSE", "false", "False"] then some false
  else none

/-- `p.parseIdentifier()`: always a node. -/
def parseIdentifier (p : Parser) : Option Expression :=
  some (.IdentifierLiteral p.curToken p.curToken.literal)

/-- `p.parseIntegerLiteral()`: nil on a `ParseInt` error. -/
def parseIntegerLiteral (p : Parser) : Option Expression :=
  (goParseInt p.curToken.literal).map (.IntegerLiteral p.curToken)

/-- `p.parseFloatLiteral()`: nil on a `ParseFloat` error. -/
def parseFloatLiteral (p : Parser) : Option Expression :=
  (goParseFloat p.curToken.literal).map (.FloatLiteral p.curToken)

/-- `p.parseStringLiteral()`. -/
def parseStringLiteral (p : Parser) : Option Expression :=
  some (.StringLiteral p.curToken p.curToken.literal)

/-- `p.parseBooleanLiteral()`: nil on a `ParseBool` error. -/
def parseBooleanLiteral (p : Parser) : Option Expression :=
  (goParseBool p.curToken.literal).map (.BooleanLiteral p.curToken)

/-- `p.parseDataType()`: accept one of the four type-keyword token
kinds from the peek position, otherwise nil. -/
def parseDataType (p : Parser) : Option DataType × Parser :=
  if p.peekToken.typ = lexer.INT ∨ p.peekToken.typ = lexer.FLOAT ∨
      p.peekToken.typ = lexer.STRING ∨ p.peekToken.typ = lexer.BOOL then
    let p := nextTokenP p
    (some { token := p.curToken }, p)
  else
    (none, p)

/-- Result of a parsing function: a value plus the mutated parser, or
divergence of one of the source's loops. -/
inductive PRes (α : Type) where
  | ok : α → Parser → PRes α
  | diverge : PRes α
  deriving Repr

/-- `p.parseExpression()`.  The source's loop structure is:

```
p.nextToken()
for p.curToken.Type != RBRACE {
    for p.curToken.Type != SEMICOLON {
        switch p.curToken.Type { ...parse one literal, discarded... }
        return nil
    }
}
return nil
```

After the initial `nextToken`, exactly one of three things happens:
if the current token is `RBRACE` the outer loop is skipped and nil is
returned; otherwise, if it is `SEMICOLON` the inner loop body never
runs and no state changes, so the outer loop spins forever; otherwise
the inner loop body runs once — the `switch` parses a single literal
whose node is discarded (the literal parsers read `curToken` and do not
advance the parser) — and returns nil.  The function never returns a
non-nil expression. -/
def parseExpression (p : Parser) : PRes (Option Expression) :=
  let p := nextTokenP p
  if p.curToken.typ = lexer.RBRACE then .ok none p
  else if p.curToken.typ = lexer.SEMICOLON then .diverge
  else .ok none p

/-- `p.parseVarStatement()`: `var NAME : type = <expr>`, nil as soon as
any sub-parse fails — in particular always nil when it reaches
`parseExpression`, which never yields a value. -/
def parseVarStatement (p : Parser) : PRes (Option VarStatement) :=
  let stmtToken := p.curToken
  match expectPeek p lexer.IDENT with
  | (false, p) => .ok none p
  | (true, p) =>
    let name : Identifier := { token := p.curToken, value := p.curToken.literal }
    match expectPeek p lexer.COLON with
    | (false, p) => .ok none p
    | (true, p) =>
      match parseDataType p with
      | (none, p) => .ok none p
      | (some dt, p) =>
        match expectPeek p lexer.ASSIGN with
        | (false, p) => .ok none p
        | (true, p) =>
          match parseExpression p with
          | .diverge => .diverge
          | .ok none p => .ok none p
          | .ok (some v) p =>
              .ok (some { token := stmtToken, name := some name,
                          typ := some dt, value := some v }) p

/-- `p.parseGoal()`: `goal : "..."`. -/
def parseGoal (p : Parser) : Option Goal × Parser :=
  let goalToken := p.curToken
  match expectPeek p lexer.COLON with
  | (false, p) => (none, p)
  | (true, p) =>
    match expectPeek p lexer.STRING with
    | (false, p) => (none, p)
    | (true, p) => (some { token := goalToken, value := p.curToken.literal }, p)

/-- The collection loop of `parseCapabilities`. -/
def capsLoopF : Nat → Parser → lexer.Token → List String →
    (Option Capabilities × Parser)
  | 0, p, _, _ => (none, p)
  | fuel + 1, p, tok, acc =>
    if ¬curTokenIs p lexer.RBRACE ∧ ¬curTokenIs p lexer.EOF then
      let p := nextTokenP p
      if p.curToken.typ = lexer.STRING then
        capsLoopF fuel p tok (acc ++ [p.curToken.literal])
      else if p.curToken.typ = lexer.COMMA then
        capsLoopF fuel p tok acc
      else if p.curToken.typ = lexer.RBRACKET then
        (some { token := tok, values := acc }, p)
      else
        (none, p)
    else
      (some { token := tok, values := acc }, p)

/-- `p.parseCapabilities()`: `capabilities : [ "a", "b", ... ]`.  The
loop fuel is a bound on its iterations: every iteration consumes one
lexer token and the token stream is exhausted after `input.length + 2`
tokens. -/
def parseCapabilities (p : Parser) : Option Capabilities × Parser :=
  let capTok := p.curToken
  match expectPeek p lexer.COLON with
  | (false, p) => (none, p)
  | (true, p) =>
    match expectPeek p lexer.LBRACKET with
    | (false, p) => (none, p)
    | (true, p) => capsLoopF (p.l.input.length + 2) p capTok []

/-- The head of `parseFunctionParameters` plus its comma loop. -/
def paramsLoopF : Nat → Parser → List Identifier → (Option (List Identifier) × Parser)
  | 0, p, _ => (none, p)
  | fuel + 1, p, acc =>
    if peekTokenIs p lexer.COMMA then
      let p := nextTokenP (nextTokenP p)
      paramsLoopF fuel p (acc ++ [{ token := p.curToken, value := p.curToken.literal }])
    else
      match expectPeek p lexer.RPAREN with
      | (false, p) => (none, p)
      | (true, p) => (some acc, p)

/-- `p.parseFunctionParameters()`: a possibly empty comma-separated
identifier list closed by `)`; nil if the closing `)` is missing. -/
def parseFunctionParameters (p : Parser) : Option (List Identifier) × Parser :=
  if peekTokenIs p lexer.RPAREN then
    (some [], nextTokenP p)
  else
    let p := nextTokenP p
    paramsLoopF (p.l.input.length + 2) p
      [{ token := p.curToken, value := p.curToken.literal }]

mutual

/-- `p.parseStatement()`: dispatch on the current token kind.  The
`VAR` case converts the possibly-nil `*VarStatement` into a non-nil
`Statement` interface value (`Statement.VarStatement none` when the
pointer is nil); the other paths return a nil interface (`none`). -/
def parseStatementF : Nat → Parser → PRes (Option Statement)
  | 0, _ => .diverge
  | fuel + 1, p =>
    if p.curToken.typ = lexer.AGENT then
      match parseAgentStatementF fuel p with
      | .diverge => .diverge
      | .ok none p => .ok none p
      | .ok (some a) p => .ok (some (.AgentStatement (some a))) p
    else if p.curToken.typ = lexer.VAR then
      match parseVarStatement p with
      | .diverge => .diverge
      | .ok v p => .ok (some (.VarStatement v)) p
    else if p.curToken.typ = lexer.EOF then
      .ok none p
    else
      .ok none p

/-- `p.parseAgentStatement()`: `agent NAME { ... }`, collecting goal,
capabilities, behaviors and functions until the closing brace.  A nil
result models the `(nil, err)` return. -/
def parseAgentStatementF : Nat → Parser → PRes (Option AgentStatement)
  | 0, _ => .diverge
  | fuel + 1, p =>
    let stmtToken := p.curToken
    match expectPeek p lexer.IDENT with
    | (false, p) => .ok none p
    | (true, p) =>
      let name : Identifier := { token := p.curToken, value := p.curToken.literal }
      match expectPeek p lexer.LBRACE with
      | (false, p) => .ok none p
      | (true, p) => agentLoopF fuel p stmtToken name none none [] []

/-- The body-collection loop of `parseAgentStatement`.  Unrecognized
tokens inside the body are skipped; `parseBehavior`/`parseFunction`
results are appended as the possibly-nil pointers they are. -/
def agentLoopF : Nat → Parser → lexer.Token → Identifier → Option Goal →
    Option Capabilities → List (Option Behavior) → List (Option Function) →
    PRes (Option AgentStatement)
  | 0, _, _, _, _, _, _, _ => .diverge
  | fuel + 1, p, tok, name, g, c, bs, fs =>
    if ¬curTokenIs p lexer.RBRACE ∧ ¬curTokenIs p lexer.EOF then
      let p := nextTokenP p
      if p.curToken.typ = lexer.GOAL then
        let (g', p) := parseGoal p
        agentLoopF fuel p tok name g' c bs fs
      else if p.curToken.typ = lexer.CAPABILITIES then
        let (c', p) := parseCapabilities p
        agentLoopF fuel p tok name g c' bs fs
      else if p.curToken.typ = lexer.BEHAVIOR then
        match parseBehaviorF fuel p with
        | .diverge => .diverge
        | .ok b p => agentLoopF fuel p tok name g c (bs ++ [b]) fs
      else if p.curToken.typ = lexer.FUNCTION then
        match parseFunctionF fuel p with
        | .diverge => .diverge
        | .ok f p => agentLoopF fuel p tok name g c bs (fs ++ [f])
      else
        agentLoopF fuel p tok name g c bs fs
    else
      .ok (some (.mk tok (some name) g c bs fs)) p

/-- `p.parseBehavior()`: `behavior { on "evt" { ... } ... }`; nil when
the opening brace is missing or an unexpected token appears. -/
def parseBehaviorF : Nat → Parser → PRes (Option Behavior)
  | 0, _ => .diverge
  | fuel + 1, p =>
    let behaviorToken := p.curToken
    match expectPeek p lexer.LBRACE with
    | (false, p) => .ok none p
    | (true, p) => behaviorLoopF fuel p behaviorToken []

/-- The handler-collection loop of `parseBehavior` (the `RBRACE` case
of its `switch` is a no-op `break` of the switch itself; the loop
condition then exits). -/
def behaviorLoopF : Nat → Parser → lexer.Token → List (Option EventHandler) →
    PRes (Option Behavior)
  | 0, _, _, _ => .diverge
  | fuel + 1, p, tok, acc =>
    if ¬curTokenIs p lexer.RBRACE ∧ ¬curTokenIs p lexer.EOF then
      let p := nextTokenP p
      if p.curToken.typ = lexer.ON then
        match parseEventHandlerF fuel p with
        | .diverge => .diverge
        | .ok h p => behaviorLoopF fuel p tok (acc ++ [h])
      else if p.curToken.typ = lexer.RBRACE then
        behaviorLoopF fuel p tok acc
      else
        .ok none p
    else
      .ok (some (.mk tok acc)) p

/-- `p.parseEventHandler()`: `on "event-name" { ...block... }`. -/
def parseEventHandlerF : Nat → Parser → PRes (Option EventHandler)
  | 0, _ => .diverge
  | fuel + 1, p =>
    let hTok := p.curToken
    match expectPeek p lexer.STRING with
    | (false, p) => .ok none p
    | (true, p) =>
      let ev : Event :=
        { token := lexer.zeroToken,
          name := some { token := p.curToken, value := p.curToken.literal } }
      match expectPeek p lexer.LBRACE with
      | (false, p) => .ok none p
      | (true, p) =>
        match parseBlockStatementF fuel p with
        | .diverge => .diverge
        | .ok b p => .ok (some (.mk hTok (some ev) b)) p

/-- `p.parseFunction()`: `function NAME ( params ) : IDENT { body }`.
It fills the older-iteration fields (`parameters`,
`returnTypeLiteral`); the newer-iteration fields stay zero-valued. -/
def parseFunctionF : Nat → Parser → PRes (Option Function)
  | 0, _ => .diverge
  | fuel + 1, p =>
    let fTok := p.curToken
    match expectPeek p lexer.IDENT with
    | (false, p) => .ok none p
    | (true, p) =>
      let name : Identifier := { token := p.curToken, value := p.curToken.literal }
      match expectPeek p lexer.LPAREN with
      | (false, p) => .ok none p
      | (true, p) =>
        let (params, p) := parseFunctionParameters p
        match expectPeek p lexer.COLON with
        | (false, p) => .ok none p
        | (true, p) =>
          match expectPeek p lexer.IDENT with
          | (false, p) => .ok none p
          | (true, p) =>
            let rt := p.curToken.literal
            match expectPeek p lexer.LBRACE with
            | (false, p) => .ok none p
            | (true, p) =>
              match parseBlockStatementF fuel p with
              | .diverge => .diverge
              | .ok b p =>
                  .ok (some (.mk fTok (some name) (params.getD []) rt [] none b)) p

/-- `p.parseBlockStatement()`: collect statements until `}` or `EOF`;
always returns a node. -/
def parseBlockStatementF : Nat → Parser → PRes (Option BlockStatement)
  | 0, _ => .diverge
  | fuel + 1, p =>
    let bTok := p.curToken
    let p := nextTokenP p
    blockLoopF fuel p bTok []

/-- The statement-collection loop of `parseBlockStatement`; non-nil
statements are appended behind pointers. -/
def blockLoopF : Nat → Parser → lexer.Token → List (Option Statement) →
    PRes (Option BlockStatement)
  | 0, _, _, _ => .diverge
  | fuel + 1, p, tok, acc =>
    if ¬curTokenIs p lexer.RBRACE ∧ ¬curTokenIs p lexer.EOF then
      match parseStatementF fuel p with
      | .diverge => .diverge
      | .ok stmt p =>
        let acc := match stmt with
          | some s => acc ++ [some s]
          | none => acc
        blockLoopF fuel (nextTokenP p) tok acc
    else
      .ok (some (.mk tok acc)) p

/-- The statement-collection loop of `ParseProgram`. -/
def parseProgramF : Nat → Parser → List Statement → PRes Program
  | 0, _, _ => .diverge
  | fuel + 1, p, acc =>
    if ¬(p.curToken.typ = lexer.EOF) then
      match parseStatementF fuel p with
      | .diverge => .diverge
      | .ok stmt p =>
        let acc := match stmt with
          | some s => acc ++ [s]
          | none => acc
        parseProgramF fuel (nextTokenP p) acc
    else
      .ok { statements := acc } p

end

/-- `p.ParseProgram()`.  The fuel bounds the total number of loop
iterations and nested parse calls; every iteration consumes at least
one lexer token and every nesting level is entered behind a consumed
token, so a small multiple of the input length suffices. -/
def ParseProgram (p : Parser) : PRes Program :=
  parseProgramF (p.l.input.length * 8 + 64) p []

/-- Parse a source string through `lexer.New`, `parser.New` and
`ParseProgram`, exposing the statement list of the result. -/
def parsedStatements (src : String) : Option (List Statement) :=
  match ParseProgram (New (lexer.New src.data)) with
  | .ok prog _ => some prog.statements
  | .diverge => none

end parser



namespace semantic

/-- `semantic.FunctionSignature`. -/
structure FunctionSignature where
  arguments : List String
  returnType : String
  deriving DecidableEq, Repr

/-- `semantic.Scope`: the name→type map (`variables` in the source,
`vars` here because `variables` is reserved) and the name→signature map,
modelled as association lists; the source only inserts fresh keys and
looks keys up, so map iteration order never matters. -/
structure Scope where
  vars : List (String × String)
  functions : List (String × FunctionSignature)
  deriving DecidableEq, Repr

/-- The empty scope (freshly `make`d maps). -/
def emptyScope : Scope := { vars := [], functions := [] }

/-- `semantic.SymbolTable`: the current scope, the chain of parent
scopes (innermost first, the global scope last — `currentScope` plus
the `parent` pointers), and the input of the lexer the table holds for
source-line lookup. -/
structure SymbolTable where
  current : Scope
  parents : List Scope
  input : List Char
  deriving DecidableEq, Repr

/-- `semantic.NewSymbolTable(l)`: a single global scope. -/
def NewSymbolTable (input : List Char) : SymbolTable :=
  { current := emptyScope, parents := [], input := input }

/-- `st.pushScope()`. -/
def pushScope (st : SymbolTable) : SymbolTable :=
  { st with current := emptyScope, parents := st.current :: st.parents }

/-- `st.popScope()`: panics on the global scope. -/
def popScope (st : SymbolTable) : Except GoPanic SymbolTable :=
  match st.parents with
  | [] => .error (.panicMsg "cannot pop the global scope")
  | p :: ps => .ok { st with current := p, parents := ps }

/-- `st.DeclareVariable(name, varType)`: error if the name exists in
the *current* scope. -/
def DeclareVariable (st : SymbolTable) (name varType : String) :
    Except String SymbolTable :=
  if (st.current.vars.lookup name).isSome then
    .error "variable already declared in this scope"
  else
    .ok { st with current :=
            { st.current with vars := st.current.vars ++ [(name, varType)] } }

/-- `st.DeclareFunction(name, signature)`. -/
def DeclareFunction (st : SymbolTable) (name : String) (sig : FunctionSignature) :
    Except String SymbolTable :=
  if (st.current.functions.lookup name).isSome then
    .error "function already declared in this scope"
  else
    .ok { st with current :=
            { st.current with functions := st.current.functions ++ [(name, sig)] } }

/-- Walk a scope chain for a variable. -/
def lookupVar : List Scope → String → Option String
  | [], _ => none
  | s :: rest, name =>
      match s.vars.lookup name with
      | some t => some t
      | none => lookupVar rest name

/-- Walk a scope chain for a function. -/
def lookupFun : List Scope → String → Option FunctionSignature
  | [], _ => none
  | s :: rest, name =>
      match s.functions.lookup name with
      | some sig => some sig
      | none => lookupFun rest name

/-- `st.GetVariableType(name)`: outward lookup, error when absent. -/
def GetVariableType (st : SymbolTable) (name : String) : Except String String :=
  match lookupVar (st.current :: st.parents) name with
  | some t => .ok t
  | none => .error "variable not declared"

/-- `st.GetFunctionSignature(name)`. -/
def GetFunctionSignature (st : SymbolTable) (name : String) :
    Except String FunctionSignature :=
  match lookupFun (st.current :: st.parents) name with
  | some sig => .ok sig
  | none => .error ("function " ++ name ++ " not declared")

/-- `st.initSystemFunctions()`: pre-declare `log` and `syscall`,
discarding the returned errors as the source does. -/
def initSystemFunctions (st : SymbolTable) : SymbolTable :=
  let st := match DeclareFunction st "log"
      { arguments := ["string"], returnType := "void" } with
    | .ok st' => st'
    | .error _ => st
  match DeclareFunction st "syscall"
      { arguments := ["string", "string"], returnType := "void" } with
  | .ok st' => st'
  | .error _ => st

/-- The outcome of semantic analysis: either a Go error value returned
to the caller or a Go panic that aborts the process. -/
inductive SemFail where
  | returned : String → SemFail
  | panicked : GoPanic → SemFail
  deriving DecidableEq, Repr

/-- `st.l.Line(tok)`. -/
def Line (st : SymbolTable) (tok : lexer.Token) : Nat :=
  lexer.lineOf st.input tok.loc

/-- `st.getExpressionType(expr)`.  Errors are the plain Go error
strings (callers wrap them with a line prefix); dereferencing the nil
callee pointer or a failed `(*parser.IdentifierLiteral)` type assertion
is a panic.  The source's final `unknown expression type` branch is
unreachable over the closed sum of the concrete node kinds. -/
def getExpressionType (st : SymbolTable) : parser.Expression → Except SemFail String
  | .IdentifierLiteral _ v =>
      match GetVariableType st v with
      | .ok t => .ok t
      | .error e => .error (.returned e)
  | .IntegerLiteral _ _ => .ok "int"
  | .FloatLiteral _ _ => .ok "float"
  | .StringLiteral _ _ => .ok "string"
  | .BooleanLiteral _ _ => .ok "bool"
  | .InfixExpression _ left _ right =>
      (match getExpressionType st left with
       | .error e => .error e
       | .ok leftType =>
         match getExpressionType st right with
         | .error e => .error e
         | .ok rightType =>
           if leftType ≠ rightType then
             .error (.returned "type mismatch in infix expression")
           else
             .ok leftType)
  | .CallExpression _ function _ =>
      match function with
      | none => .error (.panicked .nilDeref)
      | some (.IdentifierLiteral _ funcName) =>
          (match GetFunctionSignature st funcName with
           | .ok sig => .ok sig.returnType
           | .error e => .error (.returned e))
      | some _ => .error (.panicked (.panicMsg "interface conversion"))

mutual

/-- `st.analyseExpression(expr)`.  Identifier references resolve
against the scope chain; infix operands are analysed recursively with
*no* operand-type comparison; call expressions check declaration,
arity, and per-argument types, wrapping every error with the call
token's line; literals match no case and are accepted. -/
def analyseExpression (st : SymbolTable) : parser.Expression → Except SemFail Unit
  | .IdentifierLiteral _ v =>
      (match GetVariableType st v with
       | .ok _ => .ok ()
       | .error e => .error (.returned e))
  | .InfixExpression _ left _ right =>
      (match analyseExpression st left with
       | .error f => .error f
       | .ok () => analyseExpression st right)
  | .CallExpression tok function arguments =>
      (match function with
       | none => .error (.panicked .nilDeref)
       | some (.IdentifierLiteral _ funcName) =>
           (match GetFunctionSignature st funcName with
            | .error e =>
                .error (.returned ("line " ++ toString (Line st tok) ++ ": " ++ e))
            | .ok funcSig =>
                if funcSig.arguments.length ≠ arguments.length then
                  .error (.returned ("line " ++ toString (Line st tok) ++
                    ": expected " ++ toString funcSig.arguments.length ++
                    " arguments but got " ++ toString arguments.length))
                else
                  checkArgs st tok funcSig.arguments arguments 0)
       | some _ => .error (.panicked (.panicMsg "interface conversion")))
  | .IntegerLiteral _ _ => .ok ()
  | .FloatLiteral _ _ => .ok ()
  | .StringLiteral _ _ => .ok ()
  | .BooleanLiteral _ _ => .ok ()

/-- The per-argument loop of the call case of `analyseExpression`:
analyse the argument, infer its type, and compare it with the declared
parameter type, wrapping each failure with the call token's line (Go
panics propagate unwrapped). -/
def checkArgs (st : SymbolTable) (tok : lexer.Token) (sigArgs : List String) :
    List (Option parser.Expression) → Nat → Except SemFail Unit
  | [], _ => .ok ()
  | none :: _, _ => .error (.panicked .nilDeref)
  | some argExpr :: rest, i =>
      match analyseExpression st argExpr with
      | .error (.returned e) =>
          .error (.returned ("line " ++ toString (Line st tok) ++ ": " ++ e))
      | .error (.panicked g) => .error (.panicked g)
      | .ok () =>
          match getExpressionType st argExpr with
          | .error (.returned e) =>
              .error (.returned ("line " ++ toString (Line st tok) ++ ": " ++ e))
          | .error (.panicked g) => .error (.panicked g)
          | .ok argType =>
              match sigArgs.get? i with
              | none => .error (.panicked (.indexOutOfRange i))
              | some expected =>
                  if expected ≠ argType then
                    .error (.returned ("line " ++ toString (Line st tok) ++
                      ": type mismatch for argument " ++ toString (i + 1) ++
                      ": expected " ++ expected ++ " but got " ++ argType))
                  else
                    checkArgs st tok sigArgs rest (i + 1)

end

/-- `st.getArgumentsTypes(args)`: collect the declared argument types,
panicking on a nil argument or nil type pointer. -/
def getArgumentsTypes :
    List (Option parser.FunctionArgument) → Except GoPanic (List String)
  | [] => .ok []
  | none :: _ => .error .nilDeref
  | some arg :: rest =>
      match arg.typ with
      | none => .error .nilDeref
      | some dt =>
          match getArgumentsTypes rest with
          | .error g => .error g
          | .ok ts => .ok (dt.token.literal :: ts)

/-- The argument-declaration loop of the `Function` case of
`analyseStatement`. -/
def declareFunctionArgs (st : SymbolTable) :
    List (Option parser.FunctionArgument) → Except SemFail SymbolTable
  | [] => .ok st
  | none :: _ => .error (.panicked .nilDeref)
  | some arg :: rest =>
      match arg.name with
      | none => .error (.panicked .nilDeref)
      | some nm =>
        match arg.typ with
        | none => .error (.panicked .nilDeref)
        | some dt =>
          match DeclareVariable st nm.value dt.token.literal with
          | .error e => .error (.returned e)
          | .ok st' => declareFunctionArgs st' rest

mutual

/-- `st.analyseStatement(stmt)`.  Each case dereferences the fields
the source touches in source order (a nil pointer is a panic); symbol
table errors are returned unwrapped.  A `BlockStatement` value matches
no case and is accepted. -/
def analyseStatement (st : SymbolTable) : parser.Statement →
    Except SemFail SymbolTable
  | .AgentStatement a =>
      (match a with
       | none => .error (.panicked .nilDeref)
       | some agent =>
         match agent with
         | .mk _ name _ _ _ _ =>
           match name with
           | none => .error (.panicked .nilDeref)
           | some nm =>
             match DeclareVariable st nm.value "agent" with
             | .error e => .error (.returned e)
             | .ok st' => analyseAgentStatement st' agent)
  | .VarStatement v =>
      (match v with
       | none => .error (.panicked .nilDeref)
       | some s =>
         match s.name with
         | none => .error (.panicked .nilDeref)
         | some nm =>
           match s.typ with
           | none => .error (.panicked .nilDeref)
           | some dt =>
             match DeclareVariable st nm.value dt.token.literal with
             | .error e => .error (.returned e)
             | .ok st' =>
               match s.value with
               | none => .error (.panicked .nilDeref)
               | some e =>
                 match analyseExpression st' e with
                 | .ok () => .ok st'
                 | .error f => .error f)
  | .Function f => analyseFunctionNode st f
  | .ExpressionStatement e =>
      (match e with
       | none => .error (.panicked .nilDeref)
       | some es =>
         match es.expression with
         | none => .error (.panicked .nilDeref)
         | some ex =>
           match analyseExpression st ex with
           | .ok () => .ok st
           | .error f => .error f)
  | .ReturnStatement r =>
      (match r with
       | none => .error (.panicked .nilDeref)
       | some rs =>
         match rs.value with
         | none => .error (.panicked .nilDeref)
         | some ex =>
           match analyseExpression st ex with
           | .ok () => .ok st
           | .error f => .error f)
  | .BlockStatement _ => .ok st

/-- The `*parser.Function` case of `analyseStatement`, shared with the
function loop of `analyseAgentStatement` (which passes each
possibly-nil `*Function` to `analyseStatement` behind a non-nil
`Statement` interface value): build the signature (panicking through
nil pointers), declare the function, then check the body in a fresh
scope holding the arguments. -/
def analyseFunctionNode (st : SymbolTable) (f : Option parser.Function) :
    Except SemFail SymbolTable :=
  match f with
  | none => .error (.panicked .nilDeref)
  | some (.mk _ name _ _ arguments returnType body) =>
    match getArgumentsTypes arguments with
    | .error g => .error (.panicked g)
    | .ok argTypes =>
      match returnType with
      | none => .error (.panicked .nilDeref)
      | some rt =>
        let signature : FunctionSignature :=
          { arguments := argTypes, returnType := rt.token.literal }
        match name with
        | none => .error (.panicked .nilDeref)
        | some nm =>
          match DeclareFunction st nm.value signature with
          | .error e => .error (.returned e)
          | .ok st' =>
            let st' := pushScope st'
            match declareFunctionArgs st' arguments with
            | .error f' => .error f'
            | .ok st' =>
              match body with
              | none => .error (.panicked .nilDeref)
              | some (.mk _ statements) =>
                match analyseStatementList st' statements with
                | .error f' => .error f'
                | .ok st' =>
                  match popScope st' with
                  | .error g => .error (.panicked g)
                  | .ok st' => .ok st'

/-- `st.analyseAgentStatement(agent)`: a fresh scope around every
event-handler body, then the agent's functions. -/
def analyseAgentStatement (st : SymbolTable) (agent : parser.AgentStatement) :
    Except SemFail SymbolTable :=
  match agent with
  | .mk _ _ _ _ behaviors functions =>
    match analyseBehaviors st behaviors with
    | .error f => .error f
    | .ok st' => analyseAgentFunctions st' functions

/-- The loop over `agent.Behaviors`. -/
def analyseBehaviors (st : SymbolTable) :
    List (Option parser.Behavior) → Except SemFail SymbolTable
  | [] => .ok st
  | none :: _ => .error (.panicked .nilDeref)
  | some (.mk _ eventHandlers) :: rest =>
      match analyseHandlers st eventHandlers with
      | .error f => .error f
      | .ok st' => analyseBehaviors st' rest

/-- The loop over one behavior's event handlers. -/
def analyseHandlers (st : SymbolTable) :
    List (Option parser.EventHandler) → Except SemFail SymbolTable
  | [] => .ok st
  | none :: _ => .error (.panicked .nilDeref)
  | some (.mk _ _ blockStatement) :: rest =>
      let st' := pushScope st
      match analyseBlockStatement st' blockStatement with
      | .error f => .error f
      | .ok st' =>
        match popScope st' with
        | .error g => .error (.panicked g)
        | .ok st' => analyseHandlers st' rest

/-- `st.analyseBlockStatement(block)` (the argument is the
possibly-nil pointer). -/
def analyseBlockStatement (st : SymbolTable) :
    Option parser.BlockStatement → Except SemFail SymbolTable
  | none => .error (.panicked .nilDeref)
  | some (.mk _ statements) => analyseStatementList st statements

/-- The loop over a block's statement pointers. -/
def analyseStatementList (st : SymbolTable) :
    List (Option parser.Statement) → Except SemFail SymbolTable
  | [] => .ok st
  | none :: _ => .error (.panicked .nilDeref)
  | some s :: rest =>
      match analyseStatement st s with
      | .error f => .error f
      | .ok st' => analyseStatementList st' rest

/-- The loop over `agent.Functions`: each `*Function` is passed to the
`analyseStatement` dispatch as a non-nil interface value, which lands
in the shared `Function` case. -/
def analyseAgentFunctions (st : SymbolTable) :
    List (Option parser.Function) → Except SemFail SymbolTable
  | [] => .ok st
  | f :: rest =>
      match analyseFunctionNode st f with
      | .error f' => .error f'
      | .ok st' => analyseAgentFunctions st' rest

end

/-- The statement fold of `Analyse`. -/
def analyseProgramStatements (st : SymbolTable) :
    List parser.Statement → Except SemFail SymbolTable
  | [] => .ok st
  | s :: rest =>
      match analyseStatement st s with
      | .error f => .error f
      | .ok st' => analyseProgramStatements st' rest

/-- `st.Analyse(program)`: pre-declare the builtins, then analyse the
top-level statements, stopping at the first error. -/
def Analyse (st : SymbolTable) (program : parser.Program) :
    Except SemFail SymbolTable :=
  let st := initSystemFunctions st
  analyseProgramStatements st program.statements

end semantic


namespace vm

/-- `vm.Opcode`: the full constant block, in declaration order. -/
inductive Opcode where
  | OpAdd | OpSub | OpMul | OpDiv
  | OpPush | OpPop
  | OpPrint
  | OpHalt | OpJump | OpJumpIfFalse
  | OpSetLocal | OpGetLocal
  | OpCall | OpReturn
  | OpCreateAgent | OpSetAgentGoal | OpAddAgentCapability
  | OpCreateEventHandler | OpSetEventHandlerEvent | OpAddAgentEventHandler
  | OpCreateFunction | OpAddFunctionArgument | OpAddAgentFunction
  | OpEqual | OpNotEqual | OpGreaterThan | OpLessThan
  | OpGreaterThanOrEqual | OpLessThanOrEqual
  | OpAnd | OpOr | OpNot
  | OpConcatString | OpPushString
  | OpSyscall | OpExec | OpLog
  | OpCreateList | OpAppendList | OpGetListItem | OpSetListItem
  deriving DecidableEq, Repr

/-- `vm.Instruction`. -/
structure Instruction where
  opcode : Opcode
  operand : Int
  deriving DecidableEq, Repr

/-- A dynamically typed Go `interface{}` value as the VM stack and
locals hold it: nil, a 64-bit int, a float (exact-rational model), a
string, or a bool. -/
inductive GoVal where
  | vnil
  | vint : Int → GoVal
  | vfloat : Rat → GoVal
  | vstr : String → GoVal
  | vbool : Bool → GoVal
  deriving DecidableEq, Repr

/-- Go's `%T` verb on the modelled values. -/
def goTypeName : GoVal → String
  | .vnil => "<nil>"
  | .vint _ => "int"
  | .vfloat _ => "float64"
  | .vstr _ => "string"
  | .vbool _ => "bool"

/-- The host environment behind `exec.Command`: the combined output of
an external command, or an error.  The VM's state transition is
parameterized by it; no claim depends on a particular environment. -/
structure HostEnv where
  execCombinedOutput : String → String → Except String String

/-- `vm.VM`. -/
structure VM where
  stack : List GoVal
  locals : List GoVal
  pc : Int
  instructions : List Instruction
  running : Bool
  callStack : List Int
  stringConstants : List String
  deriving DecidableEq, Repr

/-- `vm.New(instructions)`: empty stack, 256 nil locals, `pc` 0,
running, empty call stack, empty string-constant pool. -/
def New (instructions : List Instruction) : VM :=
  { stack := [],
    locals := List.replicate 256 .vnil,
    pc := 0,
    instructions := instructions,
    running := true,
    callStack := [],
    stringConstants := [] }

/-- `vm.popStack()`: on an empty stack the VM logs an error, stops
running and yields nil; otherwise the top (last appended) value is
removed and returned. -/
def popStack (v : VM) : GoVal × VM :=
  match v.stack.getLast? with
  | none => (.vnil, { v with running := false })
  | some x => (x, { v with stack := v.stack.dropLast })

/-- `vm.getStringConstant(index)`: a TODO stub — it ignores
`stringConstants` entirely and formats a placeholder with
`fmt.Sprintf("String constant %d", index)`. -/
def getStringConstant (_v : VM) (index : Int) : String :=
  "String constant " ++ toString index

/-- `vm.AddStringConstant(s)`: append to the pool, return the index. -/
def AddStringConstant (v : VM) (s : String) : Int × VM :=
  ((v.stringConstants.length : Int),
   { v with stringConstants := v.stringConstants ++ [s] })

/-- `vm.GetLastResult()`. -/
def GetLastResult (v : VM) : GoVal :=
  match v.stack.getLast? with
  | some x => x
  | none => .vnil

/-- `vm.add`: int/float with widening, anything else panics. -/
def add : GoVal → GoVal → Except GoPanic GoVal
  | .vint x, .vint y => .ok (.vint (goWrap (x + y)))
  | .vint x, .vfloat y => .ok (.vfloat ((x : Rat) + y))
  | .vfloat x, .vint y => .ok (.vfloat (x + (y : Rat)))
  | .vfloat x, .vfloat y => .ok (.vfloat (x + y))
  | a, b => .error (.panicMsg ("Unsupported types for addition: " ++
      goTypeName a ++ " and " ++ goTypeName b))

/-- `vm.sub`. -/
def sub : GoVal → GoVal → Except GoPanic GoVal
  | .vint x, .vint y => .ok (.vint (goWrap (x - y)))
  | .vint x, .vfloat y => .ok (.vfloat ((x : Rat) - y))
  | .vfloat x, .vint y => .ok (.vfloat (x - (y : Rat)))
  | .vfloat x, .vfloat y => .ok (.vfloat (x - y))
  | a, b => .error (.panicMsg ("Unsupported types for subtraction: " ++
      goTypeName a ++ " and " ++ goTypeName b))

/-- `vm.mul`. -/
def mul : GoVal → GoVal → Except GoPanic GoVal
  | .vint x, .vint y => .ok (.vint (goWrap (x * y)))
  | .vint x, .vfloat y => .ok (.vfloat ((x : Rat) * y))
  | .vfloat x, .vint y => .ok (.vfloat (x * (y : Rat)))
  | .vfloat x, .vfloat y => .ok (.vfloat (x * y))
  | a, b => .error (.panicMsg ("Unsupported types for multiplication: " ++
      goTypeName a ++ " and " ++ goTypeName b))

/-- `vm.div`: every numeric pairing checks its divisor against zero and
panics `"Division by zero"` before dividing. -/
def div : GoVal → GoVal → Except GoPanic GoVal
  | .vint x, .vint y =>
      if y = 0 then .error (.panicMsg "Division by zero")
      else .ok (.vint (goIntDiv x y))
  | .vint x, .vfloat y =>
      if y = 0 then .error (.panicMsg "Division by zero")
      else .ok (.vfloat ((x : Rat) / y))
  | .vfloat x, .vint y =>
      if y = 0 then .error (.panicMsg "Division by zero")
      else .ok (.vfloat (x / (y : Rat)))
  | .vfloat x, .vfloat y =>
      if y = 0 then .error (.panicMsg "Division by zero")
      else .ok (.vfloat (x / y))
  | a, b => .error (.panicMsg ("Unsupported types for division: " ++
      goTypeName a ++ " and " ++ goTypeName b))

/-- `vm.executeBinaryOp(opcode)`: pop right then left, dispatch, push
the result.  For a non-arithmetic opcode (never passed by `step`) the
`var result interface{}` zero value nil would be pushed. -/
def executeBinaryOp (opcode : Opcode) (v : VM) : Except GoPanic VM :=
  let (right, v) := popStack v
  let (left, v) := popStack v
  let result : Except GoPanic GoVal :=
    match opcode with
    | .OpAdd => add left right
    | .OpSub => sub left right
    | .OpMul => mul left right
    | .OpDiv => div left right
    | _ => .ok .vnil
  match result with
  | .error g => .error g
  | .ok r => .ok { v with stack := v.stack ++ [r] }

/-- `vm.step()`, parameterized by the host environment for `OpExec`.
Past the end of the instruction list the VM stops; a negative `pc`
panics on the slice access.  Every case advances `pc` afterwards except
`OpCall` and `OpReturn`, which return early after setting `pc`; the
agent-construction opcodes are logging stubs that only pop their
logged operands; `OpJump`, `OpJumpIfFalse`, the comparisons, logicals
and list opcodes hit the unknown-opcode default, which reports the
opcode and stops the VM. -/
def step (env : HostEnv) (v : VM) : Except GoPanic VM :=
  if v.pc ≥ (v.instructions.length : Int) then
    .ok { v with running := false }
  else
    match goSliceGet v.instructions v.pc with
    | .error g => .error g
    | .ok instr =>
      match instr.opcode with
      | .OpAdd | .OpSub | .OpMul | .OpDiv =>
          (match executeBinaryOp instr.opcode v with
           | .error g => .error g
           | .ok v => .ok { v with pc := v.pc + 1 })
      | .OpPush =>
          .ok { v with stack := v.stack ++ [.vint instr.operand], pc := v.pc + 1 }
      | .OpPop =>
          let (_, v) := popStack v
          .ok { v with pc := v.pc + 1 }
      | .OpPrint =>
          let (_, v) := popStack v
          .ok { v with pc := v.pc + 1 }
      | .OpSetLocal =>
          let (value, v) := popStack v
          (match goSliceSet v.locals instr.operand value with
           | .error g => .error g
           | .ok locals => .ok { v with locals := locals, pc := v.pc + 1 })
      | .OpGetLocal =>
          (match goSliceGet v.locals instr.operand with
           | .error g => .error g
           | .ok value =>
               .ok { v with stack := v.stack ++ [value], pc := v.pc + 1 })
      | .OpCall =>
          .ok { v with callStack := v.callStack ++ [v.pc + 1], pc := instr.operand }
      | .OpReturn =>
          (match v.callStack.getLast? with
           | none => .ok { v with running := false }
           | some addr =>
               .ok { v with pc := addr, callStack := v.callStack.dropLast })
      | .OpHalt =>
          .ok { v with running := false, pc := v.pc + 1 }
      | .OpCreateAgent => .ok { v with pc := v.pc + 1 }
      | .OpSetAgentGoal =>
          let (_, v) := popStack v
          .ok { v with pc := v.pc + 1 }
      | .OpAddAgentCapability =>
          let (_, v) := popStack v
          .ok { v with pc := v.pc + 1 }
      | .OpCreateEventHandler => .ok { v with pc := v.pc + 1 }
      | .OpSetEventHandlerEvent =>
          let (_, v) := popStack v
          .ok { v with pc := v.pc + 1 }
      | .OpAddAgentEventHandler =>
          let (_, v) := popStack v
          .ok { v with pc := v.pc + 1 }
      | .OpCreateFunction => .ok { v with pc := v.pc + 1 }
      | .OpAddFunctionArgument =>
          let (_, v) := popStack v
          .ok { v with pc := v.pc + 1 }
      | .OpAddAgentFunction =>
          let (_, v) := popStack v
          .ok { v with pc := v.pc + 1 }
      | .OpSyscall =>
          let (command, v) := popStack v
          (match command with
           | .vstr _ =>
               let (args, v) := popStack v
               (match args with
                | .vstr _ =>
                    -- the spawned command's combined output is only logged
                    .ok { v with pc := v.pc + 1 }
                | _ => .error (.panicMsg "interface conversion"))
           | _ => .error (.panicMsg "interface conversion"))
      | .OpExec =>
          let (command, v) := popStack v
          (match command with
           | .vstr cmd =>
               let (args, v) := popStack v
               (match args with
                | .vstr a =>
                    (match env.execCombinedOutput cmd a with
                     | .error _ => .ok { v with pc := v.pc + 1 }
                     | .ok output =>
                         .ok { v with stack := v.stack ++ [.vstr output],
                                      pc := v.pc + 1 })
                | _ => .error (.panicMsg "interface conversion"))
           | _ => .error (.panicMsg "interface conversion"))
      | .OpLog =>
          let (_, v) := popStack v
          .ok { v with pc := v.pc + 1 }
      | .OpPushString =>
          let stringValue := getStringConstant v instr.operand
          .ok { v with stack := v.stack ++ [.vstr stringValue], pc := v.pc + 1 }
      | _ =>
          .ok { v with running := false, pc := v.pc + 1 }

/-- `vm.Run()`, fuel-indexed: iterate `step` while `running`.  The
source loop has no termination guarantee (`OpCall` can jump backwards),
so the model runs a given number of iterations; a theorem that reaches
a state with `running = false` has exhibited a genuine halt. -/
def RunF (env : HostEnv) : Nat → VM → Except GoPanic VM
  | 0, v => .ok v
  | fuel + 1, v =>
      if v.running then
        match step env v with
        | .error g => .error g
        | .ok v => RunF env fuel v
      else
        .ok v

/-- A host environment for concrete runs: every external command
fails (the VM only logs the failure), so no claim depends on it. -/
def nullEnv : HostEnv :=
  { execCombinedOutput := fun _ _ => .error "exec: not found" }

end vm

namespace codegen

/-- `codegen.CodeGenerator`.  The `symbolTable` passed to the
constructor is stored but never read by any method; the two name→index
maps are association lists (only lookup and fresh insert are used). -/
structure CodeGenerator where
  instructions : List vm.Instruction
  symbolTable : semantic.SymbolTable
  functions : List (String × Int)
  symbols : List (String × Int)
  nextFuncIndex : Int
  nextSymbolIndex : Int
  deriving DecidableEq, Repr

/-- The `builtinFunctions` map. -/
def builtinFunctions : List (String × vm.Opcode) :=
  [("log", .OpLog), ("syscall", .OpSyscall), ("exec", .OpExec)]

/-- `codegen.NewCodeGenerator(symbolTable)`. -/
def NewCodeGenerator (symbolTable : semantic.SymbolTable) : CodeGenerator :=
  { instructions := [],
    symbolTable := symbolTable,
    functions := [],
    symbols := [],
    nextFuncIndex := 0,
    nextSymbolIndex := 0 }

/-- `cg.declareSymbol(name)`: existing index or the next fresh one. -/
def declareSymbol (cg : CodeGenerator) (name : String) : Int × CodeGenerator :=
  match cg.symbols.lookup name with
  | some index => (index, cg)
  | none =>
      (cg.nextSymbolIndex,
       { cg with symbols := cg.symbols ++ [(name, cg.nextSymbolIndex)],
                 nextSymbolIndex := cg.nextSymbolIndex + 1 })

/-- `cg.declareFunction(name)`. -/
def declareFunction (cg : CodeGenerator) (name : String) : Int × CodeGenerator :=
  match cg.functions.lookup name with
  | some index => (index, cg)
  | none =>
      (cg.nextFuncIndex,
       { cg with functions := cg.functions ++ [(name, cg.nextFuncIndex)],
                 nextFuncIndex := cg.nextFuncIndex + 1 })

/-- `cg.emit(opcode, operand)`. -/
def emit (cg : CodeGenerator) (opcode : vm.Opcode) (operand : Int) : CodeGenerator :=
  { cg with instructions := cg.instructions ++ [{ opcode := opcode, operand := operand }] }

/-- `cg.generateStringLiteral(value)`: intern the string into the
*symbols* map (shared with variable slots) and emit `OpPushString` with
that index.  Nothing is ever added to the VM's string-constant pool. -/
def generateStringLiteral (cg : CodeGenerator) (value : String) : CodeGenerator :=
  let (stringIndex, cg) := declareSymbol cg value
  emit cg .OpPushString stringIndex

/-- Go's conversion `int(f)` for `float64`: truncation toward zero
(the out-of-range case is undefined in Go and abstracted here). -/
def goTruncRat (q : Rat) : Int :=
  if 0 ≤ q then q.floor else q.ceil

mutual

/-- `cg.generateExpression(expr)`: literals push themselves (floats are
truncated to an integer operand — a TODO in the source), identifiers
compile to `OpGetLocal` of their symbol index (a panic when unknown),
infix expressions to left/right/opcode, calls to argument pushes
followed by a builtin opcode or `OpCall` (panics for an unknown
function, a non-identifier callee, or an unknown operator). -/
def generateExpression (cg : CodeGenerator) :
    parser.Expression → Except GoPanic CodeGenerator
  | .IntegerLiteral _ value => .ok (emit cg .OpPush value)
  | .FloatLiteral _ value => .ok (emit cg .OpPush (goTruncRat value))
  | .StringLiteral _ value => .ok (generateStringLiteral cg value)
  | .BooleanLiteral _ value =>
      .ok (if value then emit cg .OpPush 1 else emit cg .OpPush 0)
  | .IdentifierLiteral _ value =>
      (match cg.symbols.lookup value with
       | some varIndex => .ok (emit cg .OpGetLocal varIndex)
       | none => .error (.panicMsg "Undefined variable"))
  | .InfixExpression _ left operator right =>
      (match generateExpression cg left with
       | .error g => .error g
       | .ok cg =>
         match generateExpression cg right with
         | .error g => .error g
         | .ok cg =>
           if operator.typ = lexer.PLUS then .ok (emit cg .OpAdd 0)
           else if operator.typ = lexer.MINUS then .ok (emit cg .OpSub 0)
           else if operator.typ = lexer.ASTERISK then .ok (emit cg .OpMul 0)
           else if operator.typ = lexer.SLASH then .ok (emit cg .OpDiv 0)
           else .error (.panicMsg "Unknown operator"))
  | .CallExpression _ function arguments =>
      (match generateCallArgs cg arguments with
       | .error g => .error g
       | .ok cg =>
         match function with
         | none => .error .nilDeref
         | some (.IdentifierLiteral _ funcName) =>
             (match builtinFunctions.lookup funcName with
              | some opcode => .ok (emit cg opcode (arguments.length : Int))
              | none =>
                  match cg.functions.lookup funcName with
                  | some funcIndex => .ok (emit cg .OpCall funcIndex)
                  | none => .error (.panicMsg "Undefined function"))
         | some _ => .error (.panicMsg "interface conversion"))

/-- The argument loop of the call case (each `*parser.Expression`
argument pointer is dereferenced). -/
def generateCallArgs (cg : CodeGenerator) :
    List (Option parser.Expression) → Except GoPanic CodeGenerator
  | [] => .ok cg
  | none :: _ => .error .nilDeref
  | some arg :: rest =>
      match generateExpression cg arg with
      | .error g => .error g
      | .ok cg => generateCallArgs cg rest

end

/-- `cg.generateVarStatement(stmt)`: lower the initializer, then assign
the variable's symbol index and emit `OpSetLocal`. -/
def generateVarStatement (cg : CodeGenerator) (stmt : parser.VarStatement) :
    Except GoPanic CodeGenerator :=
  match stmt.value with
  | none => .error .nilDeref
  | some v =>
    match generateExpression cg v with
    | .error g => .error g
    | .ok cg =>
      match stmt.name with
      | none => .error .nilDeref
      | some nm =>
        let (varIndex, cg) := declareSymbol cg nm.value
        .ok (emit cg .OpSetLocal varIndex)

mutual

/-- `cg.generateStatement(stmt)`: agent declarations, expression
statements, variable declarations and return statements; any other
statement kind (including a block statement) hits
`logger.Panic("Unsupported statement type")`.  A nil pointer behind
the interface panics once its fields are touched. -/
def generateStatement (cg : CodeGenerator) :
    parser.Statement → Except GoPanic CodeGenerator
  | .AgentStatement a =>
      (match a with
       | none => .error .nilDeref
       | some agent => generateAgentStatement cg agent)
  | .ExpressionStatement e =>
      (match e with
       | none => .error .nilDeref
       | some es =>
         match es.expression with
         | none => .error .nilDeref
         | some ex => generateExpression cg ex)
  | .VarStatement v =>
      (match v with
       | none => .error .nilDeref
       | some s => generateVarStatement cg s)
  | .ReturnStatement r =>
      (match r with
       | none => .error .nilDeref
       | some rs =>
         match rs.value with
         | none => .error .nilDeref
         | some ex =>
           match generateExpression cg ex with
           | .error g => .error g
           | .ok cg => .ok (emit cg .OpReturn 0))
  | .Function _ => .error (.panicMsg "Unsupported statement type")
  | .BlockStatement _ => .error (.panicMsg "Unsupported statement type")

/-- `cg.generateAgentStatement(agent)`: create the agent, set its goal
and capabilities when present, then lower behaviors and functions in
declaration order. -/
def generateAgentStatement (cg : CodeGenerator) (agent : parser.AgentStatement) :
    Except GoPanic CodeGenerator :=
  match agent with
  | .mk _ name goal capabilities behaviors functions =>
    match name with
    | none => .error .nilDeref
    | some nm =>
      let (agentIndex, cg) := declareSymbol cg nm.value
      let cg := emit cg .OpCreateAgent agentIndex
      let cg' : Except GoPanic CodeGenerator :=
        match goal with
        | none => .ok cg
        | some g =>
            let cg := generateStringLiteral cg g.value
            .ok (emit cg .OpSetAgentGoal agentIndex)
      match cg' with
      | .error g => .error g
      | .ok cg =>
        let cg :=
          match capabilities with
          | none => cg
          | some caps =>
              caps.values.foldl (fun cg capability =>
                let cg := generateStringLiteral cg capability
                emit cg .OpAddAgentCapability agentIndex) cg
        match generateBehaviors cg agentIndex behaviors with
        | .error g => .error g
        | .ok cg => generateAgentFunctions cg agentIndex functions

/-- The loop over `agent.Behaviors`. -/
def generateBehaviors (cg : CodeGenerator) (agentIndex : Int) :
    List (Option parser.Behavior) → Except GoPanic CodeGenerator
  | [] => .ok cg
  | none :: _ => .error .nilDeref
  | some (.mk _ eventHandlers) :: rest =>
      match generateHandlers cg agentIndex eventHandlers with
      | .error g => .error g
      | .ok cg => generateBehaviors cg agentIndex rest

/-- `cg.generateBehavior(behavior, agentIndex)`: per handler, allocate
a fresh symbol index, create the handler, set its event name, lower
its body, then attach it to the agent and push its index. -/
def generateHandlers (cg : CodeGenerator) (agentIndex : Int) :
    List (Option parser.EventHandler) → Except GoPanic CodeGenerator
  | [] => .ok cg
  | none :: _ => .error .nilDeref
  | some (.mk _ event blockStatement) :: rest =>
      let eventHandlerIndex := cg.nextSymbolIndex
      let cg := { cg with nextSymbolIndex := cg.nextSymbolIndex + 1 }
      let cg := emit cg .OpCreateEventHandler eventHandlerIndex
      match event with
      | none => .error .nilDeref
      | some ev =>
        match ev.name with
        | none => .error .nilDeref
        | some evName =>
          let cg := generateStringLiteral cg evName.value
          let cg := emit cg .OpSetEventHandlerEvent eventHandlerIndex
          match generateBlockStatement cg blockStatement with
          | .error g => .error g
          | .ok cg =>
            let cg := emit cg .OpAddAgentEventHandler agentIndex
            let cg := emit cg .OpPush eventHandlerIndex
            generateHandlers cg agentIndex rest

/-- The loop over `agent.Functions`, each lowered by
`cg.generateFunction(function, agentIndex)`. -/
def generateAgentFunctions (cg : CodeGenerator) (agentIndex : Int) :
    List (Option parser.Function) → Except GoPanic CodeGenerator
  | [] => .ok cg
  | none :: _ => .error .nilDeref
  | some (.mk _ name _ _ arguments _ body) :: rest =>
      (match name with
       | none => .error .nilDeref
       | some nm =>
         let (functionIndex, cg) := declareFunction cg nm.value
         let cg := emit cg .OpCreateFunction functionIndex
         match generateFunctionArgs cg functionIndex arguments with
         | .error g => .error g
         | .ok cg =>
           match generateBlockStatement cg body with
           | .error g => .error g
           | .ok cg =>
             let cg := emit cg .OpAddAgentFunction agentIndex
             let cg := emit cg .OpPush functionIndex
             generateAgentFunctions cg agentIndex rest)

/-- The argument loop of `generateFunction`: push each argument's name
string and emit `OpAddFunctionArgument`. -/
def generateFunctionArgs (cg : CodeGenerator) (functionIndex : Int) :
    List (Option parser.FunctionArgument) → Except GoPanic CodeGenerator
  | [] => .ok cg
  | none :: _ => .error .nilDeref
  | some arg :: rest =>
      match arg.name with
      | none => .error .nilDeref
      | some nm =>
        let cg := generateStringLiteral cg nm.value
        let cg := emit cg .OpAddFunctionArgument functionIndex
        generateFunctionArgs cg functionIndex rest

/-- `cg.generateBlockStatement(block)`: lower each statement pointer. -/
def generateBlockStatement (cg : CodeGenerator) :
    Option parser.BlockStatement → Except GoPanic CodeGenerator
  | none => .error .nilDeref
  | some (.mk _ statements) => generateStatementList cg statements

/-- The statement loop of `generateBlockStatement`. -/
def generateStatementList (cg : CodeGenerator) :
    List (Option parser.Statement) → Except GoPanic CodeGenerator
  | [] => .ok cg
  | none :: _ => .error .nilDeref
  | some s :: rest =>
      match generateStatement cg s with
      | .error g => .error g
      | .ok cg => generateStatementList cg rest

end

/-- The statement fold of `GenerateBytecode`. -/
def generateProgramStatements (cg : CodeGenerator) :
    List parser.Statement → Except GoPanic CodeGenerator
  | [] => .ok cg
  | s :: rest =>
      match generateStatement cg s with
      | .error g => .error g
      | .ok cg => generateProgramStatements cg rest

/-- `codegen.GenerateBytecode(program, symbolTable)`: lower every
top-level statement, then append the terminal `OpHalt`. -/
def GenerateBytecode (program : parser.Program)
    (symbolTable : semantic.SymbolTable) : Except GoPanic (List vm.Instruction) :=
  let cg := NewCodeGenerator symbolTable
  match generateProgramStatements cg program.statements with
  | .error g => .error g
  | .ok cg => .ok (emit cg .OpHalt 0).instructions

end codegen


/-!
## Helper lemmas for the VM claims
-/

namespace vm

/-- Is the value an `int`? -/
def intV : GoVal → Bool
  | .vint _ => true
  | _ => false

/-- Is the value a `float64`? -/
def floatV : GoVal → Bool
  | .vfloat _ => true
  | _ => false

/-- Is the value numeric (an `int` or a `float64`)? -/
def numericV : GoVal → Bool
  | .vint _ => true
  | .vfloat _ => true
  | _ => false

/-- Is the value a numeric zero? -/
def zeroNumV : GoVal → Bool
  | .vint x => x == 0
  | .vfloat q => q == 0
  | _ => false

end vm


/-- A concrete VM for the C3 witness: stack `[6, 7]`, about to multiply. -/
def c3VM : vm.VM :=
  { stack := [.vint 6, .vint 7], locals := [], pc := 0, instructions := [],
    running := true, callStack := [], stringConstants := [] }

/-- A concrete VM for the C5 witness: stack `[1, 0]`, about to divide. -/
def c5VM : vm.VM :=
  { stack := [.vint 1, .vint 0], locals := [], pc := 0, instructions := [],
    running := true, callStack := [], stringConstants := [] }

/-- A concrete VM for the C9 witness: one `SET_LOCAL 3` instruction and
the value `7` on the stack. -/
def c9VM : vm.VM :=
  { vm.New [{ opcode := .OpSetLocal, operand := 3 }] with stack := [.vint 7] }

/-- A concrete VM for the C9 witness out-of-range half: `SET_LOCAL 300`. -/
def c9VMout : vm.VM :=
  { vm.New [{ opcode := .OpSetLocal, operand := 300 }] with stack := [.vint 7] }

/-- The program of the C1 scenario: `var s: string = "hello";` as an
AST (the string literal is the first interned symbol, index 0; the
variable gets index 1). -/
def c1Prog : parser.Program :=
  { statements :=
      [.VarStatement (some
        { token := lexer.zeroToken,
          name := some { token := lexer.zeroToken, value := "s" },
          typ := some { token := { typ := lexer.STRING, literal := "string", loc := 0 } },
          value := some (.StringLiteral lexer.zeroToken "hello") })] }

/-- The bytecode the code generator produces for `c1Prog`. -/
def c1Instrs : List vm.Instruction :=
  [{ opcode := .OpPushString, operand := 0 },
   { opcode := .OpSetLocal, operand := 1 },
   { opcode := .OpHalt, operand := 0 }]

/-- Run the front of the pipeline on a source string: lex, parse, then
semantic analysis with a symbol table holding the same lexer, as
`main.go` wires them (`none` when the parser diverges). -/
def analyseSource (src : String) :
    Option (Except semantic.SemFail semantic.SymbolTable) :=
  match parser.ParseProgram (parser.New (lexer.New src.data)) with
  | .ok prog _ => some (semantic.Analyse (semantic.NewSymbolTable src.data) prog)
  | .diverge => none

/-- The AST the C2 scenario expects for `var x: int = 42 * 7;` (the
one a working expression parser would build). -/
def c2ClaimedProg : parser.Program :=
  { statements :=
      [.VarStatement (some
        { token := lexer.zeroToken,
          name := some { token := lexer.zeroToken, value := "x" },
          typ := some { token := { typ := lexer.INT, literal := "int", loc := 0 } },
          value := some (.InfixExpression lexer.zeroToken
            (.IntegerLiteral lexer.zeroToken 42)
            { typ := lexer.ASTERISK, literal := "*", loc := 0 }
            (.IntegerLiteral lexer.zeroToken 7)) })] }

/-- The instruction list the C2 scenario expects. -/
def c2ClaimedInstrs : List vm.Instruction :=
  [{ opcode := .OpPush, operand := 42 },
   { opcode := .OpPush, operand := 7 },
   { opcode := .OpMul, operand := 0 },
   { opcode := .OpSetLocal, operand := 0 },
   { opcode := .OpHalt, operand := 0 }]

/-- An infix expression whose operand types differ: `1 + "a"`. -/
def c4Mismatched : parser.Expression :=
  .InfixExpression lexer.zeroToken
    (.IntegerLiteral lexer.zeroToken 1)
    { typ := lexer.PLUS, literal := "+", loc := 0 }
    (.StringLiteral lexer.zeroToken "a")

/-- `var x: int = 1 + "a";` as an AST. -/
def c4Prog : parser.Program :=
  { statements :=
      [.VarStatement (some
        { token := lexer.zeroToken,
          name := some { token := lexer.zeroToken, value := "x" },
          typ := some { token := { typ := lexer.INT, literal := "int", loc := 0 } },
          value := some c4Mismatched })] }

/-- `var x: int = 1; var x: int = 2;` as an AST: a same-scope
redeclaration. -/
def c6Prog : parser.Program :=
  { statements :=
      [.VarStatement (some
        { token := lexer.zeroToken,
          name := some { token := lexer.zeroToken, value := "x" },
          typ := some { token := { typ := lexer.INT, literal := "int", loc := 4 } },
          value := some (.IntegerLiteral { typ := lexer.INT, literal := "1", loc := 12 } 1) }),
       .VarStatement (some
        { token := { typ := lexer.VAR, literal := "var", loc := 17 },
          name := some { token := { typ := lexer.IDENT, literal := "x", loc := 19 }, value := "x" },
          typ := some { token := { typ := lexer.INT, literal := "int", loc := 22 } },
          value := some (.IntegerLiteral { typ := lexer.INT, literal := "2", loc := 29 } 2) })] }

/-- `goWrap` always lands in the signed 64-bit range. -/
theorem goWrap_bounds (x : Int) : -(2 : Int) ^ 63 ≤ goWrap x ∧ goWrap x < 2 ^ 63 := by
  unfold goWrap
  have h63 : (2 : Int) ^ 63 = 9223372036854775808 := by norm_num
  have h64 : (2 : Int) ^ 64 = 18446744073709551616 := by norm_num
  rw [h63, h64]
  omega

/-- `popStack` on a non-empty stack removes and returns the top. -/
theorem popStack_concat (v : vm.VM) (rest : List vm.GoVal) (x : vm.GoVal)
    (h : v.stack = rest ++ [x]) :
    vm.popStack v = (x, { v with stack := rest }) := by
  simp [vm.popStack, h]

/-- `executeBinaryOp` on a stack ending in `a, b` pops `b` then `a`,
applies the arithmetic function, and pushes the result. -/
theorem executeBinaryOp_stack (op : vm.Opcode) (v : vm.VM)
    (rest : List vm.GoVal) (a b : vm.GoVal) (h : v.stack = rest ++ [a, b]) :
    vm.executeBinaryOp op v =
      match (match op with
             | .OpAdd => vm.add a b
             | .OpSub => vm.sub a b
             | .OpMul => vm.mul a b
             | .OpDiv => vm.div a b
             | _ => .ok .vnil) with
      | .error g => .error g
      | .ok r => .ok { v with stack := rest ++ [r] } := by
  have hsplit : v.stack = (rest ++ [a]) ++ [b] := by simp [h]
  have h1 := popStack_concat v (rest ++ [a]) b hsplit
  have h2 := popStack_concat { v with stack := rest ++ [a] } rest a rfl
  simp only [vm.executeBinaryOp, h1, h2]

/-- **C3.**  For every execution of `ADD`, `SUB`, `MUL` or `DIV` (all of
which run through `executeBinaryOp` on the two popped operands): when
both operands are 64-bit integers (and, for `DIV`, the divisor is not
zero) the pushed result is a 64-bit integer; when both are numeric and
at least one is a float (and, for `DIV`, the divisor is not a numeric
zero) the integer operand is widened and the pushed result is a float;
when either operand is non-numeric the operation is a fatal runtime
error (a Go panic) and nothing is pushed. -/
theorem c3_binop_numeric_typing (op : vm.Opcode)
    (hop : op = .OpAdd ∨ op = .OpSub ∨ op = .OpMul ∨ op = .OpDiv)
    (v : vm.VM) (rest : List vm.GoVal) (a b : vm.GoVal)
    (hstack : v.stack = rest ++ [a, b]) :
    (∀ x y : Int, a = .vint x → b = .vint y → (op = .OpDiv → y ≠ 0) →
        ∃ z : Int, vm.executeBinaryOp op v = .ok { v with stack := rest ++ [.vint z] } ∧
          -(2 : Int) ^ 63 ≤ z ∧ z < 2 ^ 63)
  ∧ ((vm.numericV a ∧ vm.numericV b ∧ (vm.floatV a ∨ vm.floatV b) ∧
        (op = .OpDiv → vm.zeroNumV b = false)) →
        ∃ q : Rat, vm.executeBinaryOp op v = .ok { v with stack := rest ++ [.vfloat q] })
  ∧ ((vm.numericV a = false ∨ vm.numericV b = false) →
        ∃ msg, vm.executeBinaryOp op v = .error (.panicMsg msg)) := by
  rw [executeBinaryOp_stack op v rest a b hstack]
  refine ⟨?_, ?_, ?_⟩
  · rintro x y rfl rfl hdiv
    rcases hop with rfl | rfl | rfl | rfl
    · exact ⟨goWrap (x + y), by simp [vm.add], goWrap_bounds _⟩
    · exact ⟨goWrap (x - y), by simp [vm.sub], goWrap_bounds _⟩
    · exact ⟨goWrap (x * y), by simp [vm.mul], goWrap_bounds _⟩
    · have hy : y ≠ 0 := hdiv rfl
      exact ⟨goIntDiv x y, by simp [vm.div, hy], goWrap_bounds _⟩
  · rintro ⟨ha, hb, hfl, hdiv⟩
    rcases hop with rfl | rfl | rfl | rfl <;>
      cases a <;> cases b <;>
        simp_all [vm.numericV, vm.floatV, vm.zeroNumV, vm.add, vm.sub, vm.mul, vm.div]
  · intro hnn
    rcases hop with rfl | rfl | rfl | rfl <;>
      cases a <;> cases b <;>
        simp_all [vm.numericV, vm.add, vm.sub, vm.mul, vm.div]

/-- Witness for C3 at `MUL` on `6 * 7`. -/
theorem c3_binop_numeric_typing_witness :
    ∃ z : Int, vm.executeBinaryOp .OpMul c3VM =
        .ok { c3VM with stack := [] ++ [.vint z] } ∧
      -(2 : Int) ^ 63 ≤ z ∧ z < 2 ^ 63 :=
  (c3_binop_numeric_typing .OpMul (by simp) c3VM [] (.vint 6) (.vint 7) rfl).1
    6 7 rfl rfl (by simp)

/-- **C5.**  Every execution of `DIV` whose divisor operand is a
numeric zero — the integer `0` or the float `0.0`, with the dividend an
integer or a float — terminates in the fatal runtime panic
`"Division by zero"` instead of pushing a result. -/
theorem c5_div_by_zero_fatal (v : vm.VM) (rest : List vm.GoVal) (a b : vm.GoVal)
    (hstack : v.stack = rest ++ [a, b])
    (ha : vm.numericV a = true) (hb : b = .vint 0 ∨ b = .vfloat 0) :
    vm.executeBinaryOp .OpDiv v = .error (.panicMsg "Division by zero") := by
  rw [executeBinaryOp_stack .OpDiv v rest a b hstack]
  rcases hb with rfl | rfl <;> cases a <;> simp_all [vm.numericV, vm.div]

/-- Witness for C5 at `1 / 0`. -/
theorem c5_div_by_zero_fatal_witness :
    vm.executeBinaryOp .OpDiv c5VM = .error (.panicMsg "Division by zero") :=
  c5_div_by_zero_fatal c5VM [] (.vint 1) (.vint 0) rfl rfl (Or.inl rfl)

/-- A successful Go slice read implies the index was in bounds. -/
theorem goSliceGet_ok_bounds {α : Type} {xs : List α} {i : Int} {x : α}
    (h : goSliceGet xs i = .ok x) : 0 ≤ i ∧ i < (xs.length : Int) := by
  unfold goSliceGet at h
  split at h
  · assumption
  · exact absurd h (by simp)

/-- Writing one list slot leaves every other slot unchanged. -/
theorem get?_set_ne {α : Type} (l : List α) (i j : Nat) (v : α) (h : j ≠ i) :
    (l.set i v).get? j = l.get? j := by
  induction l generalizing i j with
  | nil => simp
  | cons a t ih =>
      cases i with
      | zero => cases j with
        | zero => exact absurd rfl h
        | succ j => simp
      | succ i => cases j with
        | zero => simp
        | succ j => simpa using ih i j (by omega)

/-- **C9.**  `SET_LOCAL` and `GET_LOCAL` index the fixed 256-slot
locals array (as built by `vm.New`) with no bounds check of their own:
an operand in `[0, 255]` succeeds — `SET_LOCAL` changes only that slot
and pops only the written value, `GET_LOCAL` pushes that slot — while
an operand outside `[0, 255]` aborts the whole VM with the runtime
index-out-of-range panic (`GoPanic.indexOutOfRange`), not with any of
the VM's reported-and-stop error paths (which end in an `.ok` state
with `running = false`) nor an explicit `panic(msg)`. -/
theorem c9_locals_access (env : vm.HostEnv) (v : vm.VM) (idx : Int)
    (hlen : v.locals.length = 256) :
    (∀ instrs, (vm.New instrs).locals.length = 256)
  ∧ (∀ rest val,
      v.stack = rest ++ [val] →
      goSliceGet v.instructions v.pc = .ok { opcode := .OpSetLocal, operand := idx } →
      0 ≤ idx → idx < 256 →
        vm.step env v =
          .ok { v with stack := rest, locals := v.locals.set idx.toNat val,
                       pc := v.pc + 1 } ∧
        ∀ j : Nat, j ≠ idx.toNat →
          (v.locals.set idx.toNat val).get? j = v.locals.get? j)
  ∧ (∀ rest val,
      v.stack = rest ++ [val] →
      goSliceGet v.instructions v.pc = .ok { opcode := .OpSetLocal, operand := idx } →
      (idx < 0 ∨ 255 < idx) →
        vm.step env v = .error (.indexOutOfRange idx))
  ∧ (goSliceGet v.instructions v.pc = .ok { opcode := .OpGetLocal, operand := idx } →
      0 ≤ idx → idx < 256 →
        ∃ val, v.locals.get? idx.toNat = some val ∧
          vm.step env v = .ok { v with stack := v.stack ++ [val], pc := v.pc + 1 })
  ∧ (goSliceGet v.instructions v.pc = .ok { opcode := .OpGetLocal, operand := idx } →
      (idx < 0 ∨ 255 < idx) →
        vm.step env v = .error (.indexOutOfRange idx)) := by
  refine ⟨fun instrs => List.length_replicate 256 vm.GoVal.vnil, ?_, ?_, ?_, ?_⟩
  · intro rest val hstack hfetch h0 h256
    obtain ⟨hpc0, hpclt⟩ := goSliceGet_ok_bounds hfetch
    have hnot : ¬ v.pc ≥ (v.instructions.length : Int) := by omega
    have hpop := popStack_concat v rest val hstack
    have hset : goSliceSet v.locals idx val = .ok (v.locals.set idx.toNat val) := by
      unfold goSliceSet
      rw [if_pos (by omega)]
    constructor
    · simp only [vm.step, if_neg hnot, hfetch, hpop, hset]
    · intro j hj
      exact get?_set_ne v.locals idx.toNat j val hj
  · intro rest val hstack hfetch hout
    obtain ⟨hpc0, hpclt⟩ := goSliceGet_ok_bounds hfetch
    have hnot : ¬ v.pc ≥ (v.instructions.length : Int) := by omega
    have hpop := popStack_concat v rest val hstack
    have hset : goSliceSet v.locals idx val = .error (.indexOutOfRange idx) := by
      unfold goSliceSet
      rw [if_neg (by omega)]
    simp only [vm.step, if_neg hnot, hfetch, hpop, hset]
  · intro hfetch h0 h256
    obtain ⟨hpc0, hpclt⟩ := goSliceGet_ok_bounds hfetch
    have hnot : ¬ v.pc ≥ (v.instructions.length : Int) := by omega
    have hidx : idx.toNat < v.locals.length := by omega
    refine ⟨v.locals.get ⟨idx.toNat, hidx⟩, (List.get?_eq_get hidx).symm ▸ rfl, ?_⟩
    have hget : goSliceGet v.locals idx = .ok (v.locals.get ⟨idx.toNat, hidx⟩) := by
      unfold goSliceGet
      rw [dif_pos (by omega)]
    simp only [vm.step, if_neg hnot, hfetch, hget]
  · intro hfetch hout
    obtain ⟨hpc0, hpclt⟩ := goSliceGet_ok_bounds hfetch
    have hnot : ¬ v.pc ≥ (v.instructions.length : Int) := by omega
    have hget : goSliceGet v.locals idx = .error (.indexOutOfRange idx) := by
      unfold goSliceGet
      rw [dif_neg (by omega)]
    simp only [vm.step, if_neg hnot, hfetch, hget]

set_option maxRecDepth 4000 in
/-- Witness for C9: `SET_LOCAL 3` succeeds writing slot 3 only, and
`SET_LOCAL 300` is an index-out-of-range abort. -/
theorem c9_locals_access_witness :
    (vm.step vm.nullEnv c9VM =
        .ok { c9VM with stack := [], locals := c9VM.locals.set 3 (.vint 7),
                        pc := 1 } ∧
      ∀ j : Nat, j ≠ 3 →
        (c9VM.locals.set 3 (.vint 7)).get? j = c9VM.locals.get? j)
  ∧ vm.step vm.nullEnv c9VMout = .error (.indexOutOfRange 300) := by
  constructor
  · have h := (c9_locals_access vm.nullEnv c9VM 3 (List.length_replicate 256 _)).2.1
      [] (.vint 7) rfl rfl (by decide) (by decide)
    exact ⟨h.1, fun j hj => h.2 j hj⟩
  · exact (c9_locals_access vm.nullEnv c9VMout 300 (List.length_replicate 256 _)).2.2.1
      [] (.vint 7) rfl rfl (Or.inr (by decide))

set_option maxRecDepth 4000 in
/-- **C1.**  The value `PUSH_STRING(i)` pushes is *not* the `i`-th
string interned by the code generator: `getStringConstant` is a stub
that ignores the constant pool and formats `"String constant i"`, the
code generator interns strings only into its own `symbols` map, and
`vm.New` always starts with an empty pool (`AddStringConstant`, the
only way to fill it, is never called by the code generator).  Running
the generated code for `var s: string = "hello"` stores
`"String constant 0"`, not `"hello"`. -/
theorem c1_pushstring_ignores_pool :
    (∀ (v : vm.VM) (idx : Int),
        vm.getStringConstant v idx = "String constant " ++ toString idx)
  ∧ codegen.GenerateBytecode c1Prog (semantic.NewSymbolTable []) = .ok c1Instrs
  ∧ (vm.New c1Instrs).stringConstants = []
  ∧ (vm.RunF vm.nullEnv 8 (vm.New c1Instrs)).map
      (fun f => (f.running, f.stack, f.locals.get? 1)) =
      .ok (false, [], some (.vstr "String constant 0"))
  ∧ vm.AddStringConstant (vm.New c1Instrs) "hello" =
      (0, { vm.New c1Instrs with stringConstants := ["hello"] })
  ∧ "String constant 0" ≠ "hello" :=
  ⟨fun _ _ => rfl, by rfl, by rfl, by rfl, by rfl, by decide⟩

set_option maxRecDepth 4000 in
/-- **C2.**  The pipeline does *not* compile `var x: int = 42 * 7;` to
`PUSH(42), PUSH(7), MUL, SET_LOCAL(0), HALT`: `parseExpression`
discards every parsed literal and returns nil, so `parseVarStatement`
returns a nil `*VarStatement`, which `parseStatement` wraps in a
non-nil `Statement` interface value; the parsed program is the single
nil statement, and semantic analysis dereferences that nil pointer (a
runtime panic), so code generation is never reached.  The last two
conjuncts show the claim's expectation *would* hold from the semantic
stage onward: on the intended AST the code generator emits exactly the
claimed instructions and the VM halts on them with an empty operand
stack. -/
theorem c2_pipeline_var_int_42_mul_7 :
    parser.parsedStatements "var x: int = 42 * 7;" = some [.VarStatement none]
  ∧ analyseSource "var x: int = 42 * 7;" = some (.error (.panicked .nilDeref))
  ∧ codegen.GenerateBytecode c2ClaimedProg (semantic.NewSymbolTable []) =
      .ok c2ClaimedInstrs
  ∧ (vm.RunF vm.nullEnv 10 (vm.New c2ClaimedInstrs)).map
      (fun f => (f.running, f.stack)) = .ok (false, []) :=
  ⟨by rfl, by rfl, by rfl, by rfl⟩

/-- Counterexample to C4: `Analyse` accepts the program whose `var`
initializer is the mismatched infix expression `1 + "a"` — it returns
`.ok` (declaring `x`), not an error — even though the code's own
`getExpressionType` assigns the operands the distinct types `int` and
`string` and would report a mismatch for this very expression. -/
theorem c4_counterexample_mismatched_infix_accepted :
    semantic.Analyse (semantic.NewSymbolTable []) c4Prog =
      .ok { current :=
              { vars := [("x", "int")],
                functions :=
                  [("log", { arguments := ["string"], returnType := "void" }),
                   ("syscall", { arguments := ["string", "string"], returnType := "void" })] },
            parents := [], input := [] }
  ∧ semantic.getExpressionType (semantic.NewSymbolTable []) c4Mismatched =
      .error (.returned "type mismatch in infix expression") :=
  ⟨by rfl, by rfl⟩

/-- **C4 (amended).**  `Analyse` performs no operand-type check on
infix expressions: `analyseExpression` accepts any infix expression
whose operands it accepts, regardless of their types (so an int literal
plus a string literal passes semantic analysis, as the counterexample
shows concretely).  The equal-operand-type rule lives only in
`getExpressionType` — consulted for call arguments — which yields the
common type when the operand types are equal and the error
`"type mismatch in infix expression"` when they differ. -/
theorem c4_amended_infix_typing (st : semantic.SymbolTable)
    (tok op : lexer.Token) (l r : parser.Expression) (tl tr : String) :
    (semantic.getExpressionType st l = .ok tl →
     semantic.getExpressionType st r = .ok tr →
       semantic.getExpressionType st (.InfixExpression tok l op r) =
         (if tl = tr then .ok tl
          else .error (.returned "type mismatch in infix expression")))
  ∧ (semantic.analyseExpression st l = .ok () →
     semantic.analyseExpression st r = .ok () →
       semantic.analyseExpression st (.InfixExpression tok l op r) = .ok ()) := by
  constructor
  · intro hl hr
    simp only [semantic.getExpressionType, hl, hr, Except.bind]
    by_cases h : tl = tr <;> simp [h]
  · intro hl hr
    simp only [semantic.analyseExpression, hl, hr]

/-- Witness for the amended C4 at `1 + "a"` (types `int` vs `string`). -/
theorem c4_amended_infix_typing_witness :
    semantic.getExpressionType (semantic.NewSymbolTable []) c4Mismatched =
      (if "int" = "string" then Except.ok "int"
       else .error (.returned "type mismatch in infix expression")) :=
  (c4_amended_infix_typing (semantic.NewSymbolTable []) lexer.zeroToken
    { typ := lexer.PLUS, literal := "+", loc := 0 }
    (.IntegerLiteral lexer.zeroToken 1) (.StringLiteral lexer.zeroToken "a")
    "int" "string").1 rfl rfl

/-- Counterexample to C6: the error `Analyse` returns for declaring
`x` twice in one scope is the fixed string
`"variable already declared in this scope"`, whose characters include
no digit at all — so it cannot carry the (1-based) source line of the
offending token in its message. -/
theorem c6_counterexample_redeclaration_no_line :
    semantic.Analyse
        (semantic.NewSymbolTable "var x: int = 1; var x: int = 2;".data) c6Prog =
      .error (.returned "variable already declared in this scope")
  ∧ ∀ c ∈ "variable already declared in this scope".data, ¬ c.isDigit :=
  ⟨by rfl, by decide⟩

/-- **C6 (amended).**  Only the errors produced while analysing a call
expression carry the 1-based source line: they are formatted
`"line N: …"` from the call's token (shown here for the
unknown-function error, the first of that family).  Errors from the
declaration checks — such as the redeclaration error — are returned
exactly as the symbol table produces them, with no line (and, as the
counterexample shows, no digit at all). -/
theorem c6_amended_call_errors_carry_line (st : semantic.SymbolTable)
    (tok tok2 : lexer.Token) (funcName : String)
    (args : List (Option parser.Expression)) :
    (semantic.lookupFun (st.current :: st.parents) funcName = none →
       semantic.analyseExpression st
           (.CallExpression tok (some (.IdentifierLiteral tok2 funcName)) args) =
         .error (.returned ("line " ++ toString (semantic.Line st tok) ++ ": " ++
           ("function " ++ funcName ++ " not declared"))))
  ∧ (∀ name t, (st.current.vars.lookup name).isSome = true →
       semantic.DeclareVariable st name t =
         .error "variable already declared in this scope") := by
  constructor
  · intro h
    simp only [semantic.analyseExpression, semantic.GetFunctionSignature, h]
  · intro name t h
    simp [semantic.DeclareVariable, h]

/-- Witness for the amended C6: calling the undeclared `foo` from a
token at offset 0 yields `"line 1: function foo not declared"`. -/
theorem c6_amended_call_errors_carry_line_witness :
    semantic.analyseExpression (semantic.NewSymbolTable [])
        (.CallExpression lexer.zeroToken
          (some (.IdentifierLiteral lexer.zeroToken "foo")) []) =
      .error (.returned "line 1: function foo not declared") := by
  have h := (c6_amended_call_errors_carry_line (semantic.NewSymbolTable [])
    lexer.zeroToken lexer.zeroToken "foo" []).1 rfl
  exact h

/-!
## Lexer invariant and progress lemmas
-/

namespace lexer

/-- `readChar` establishes the cursor invariant unconditionally: it is
the only operation that moves the cursor. -/
theorem chinv_readChar (l : Lexer) : ChInv (readChar l) := by
  refine ⟨rfl, ?_⟩
  show (if l.readPosition ≥ l.input.length then charZero
        else l.input.getD l.readPosition charZero) =
      l.input.getD l.readPosition charZero
  split
  · next hge => exact (List.getD_eq_default _ _ (by omega)).symm
  · rfl

/-- Under the invariant, `readChar` advances `position` by one. -/
theorem readChar_position (l : Lexer) (h : ChInv l) :
    (readChar l).position = l.position + 1 := h.1

/-- State facts through the `skipWhitespace` loop. -/
theorem skipWhitespaceF_state (f : Nat) (l : Lexer) (h : ChInv l) :
    ChInv (skipWhitespaceF f l) ∧ (skipWhitespaceF f l).input = l.input ∧
      l.position ≤ (skipWhitespaceF f l).position := by
  induction f generalizing l with
  | zero => exact ⟨h, rfl, Nat.le_refl _⟩
  | succ f ih =>
      simp only [skipWhitespaceF]
      split
      · obtain ⟨h1, h2, h3⟩ := ih (readChar l) (chinv_readChar l)
        have hp := readChar_position l h
        exact ⟨h1, h2, by omega⟩
      · exact ⟨h, rfl, Nat.le_refl _⟩

/-- State facts through the `readInt` loop. -/
theorem readIntF_state (f : Nat) (l : Lexer) (h : ChInv l) :
    ChInv (readIntF f l) ∧ (readIntF f l).input = l.input ∧
      l.position ≤ (readIntF f l).position := by
  induction f generalizing l with
  | zero => exact ⟨h, rfl, Nat.le_refl _⟩
  | succ f ih =>
      simp only [readIntF]
      split
      · obtain ⟨h1, h2, h3⟩ := ih (readChar l) (chinv_readChar l)
        have hp := readChar_position l h
        exact ⟨h1, h2, by omega⟩
      · exact ⟨h, rfl, Nat.le_refl _⟩

/-- State facts through the `readFloat` loop. -/
theorem readFloatF_state (f : Nat) (l : Lexer) (h : ChInv l) :
    ChInv (readFloatF f l) ∧ (readFloatF f l).input = l.input ∧
      l.position ≤ (readFloatF f l).position := by
  induction f generalizing l with
  | zero => exact ⟨h, rfl, Nat.le_refl _⟩
  | succ f ih =>
      simp only [readFloatF]
      split
      · obtain ⟨h1, h2, h3⟩ := ih (readChar l) (chinv_readChar l)
        have hp := readChar_position l h
        exact ⟨h1, h2, by omega⟩
      · exact ⟨h, rfl, Nat.le_refl _⟩

/-- State facts through the `readIdentifier` loop. -/
theorem readIdentifierF_state (f : Nat) (l : Lexer) (h : ChInv l) :
    ChInv (readIdentifierF f l) ∧ (readIdentifierF f l).input = l.input ∧
      l.position ≤ (readIdentifierF f l).position := by
  induction f generalizing l with
  | zero => exact ⟨h, rfl, Nat.le_refl _⟩
  | succ f ih =>
      simp only [readIdentifierF]
      split
      · obtain ⟨h1, h2, h3⟩ := ih (readChar l) (chinv_readChar l)
        have hp := readChar_position l h
        exact ⟨h1, h2, by omega⟩
      · exact ⟨h, rfl, Nat.le_refl _⟩

/-- State facts through the `readString` do-while loop, which reads at
least one byte. -/
theorem readStringF_state (f : Nat) (l : Lexer) (h : ChInv l) :
    ChInv (readStringF (f + 1) l) ∧ (readStringF (f + 1) l).input = l.input ∧
      l.position < (readStringF (f + 1) l).position := by
  induction f generalizing l with
  | zero =>
      rw [readStringF]
      split
      · exact ⟨chinv_readChar l, rfl, by have := readChar_position l h; omega⟩
      · simp only [readStringF]
        exact ⟨chinv_readChar l, rfl, by have := readChar_position l h; omega⟩
  | succ f ih =>
      rw [readStringF]
      split
      · exact ⟨chinv_readChar l, rfl, by have := readChar_position l h; omega⟩
      · obtain ⟨h1, h2, h3⟩ := ih (readChar l) (chinv_readChar l)
        have hp := readChar_position l h
        exact ⟨h1, h2, by omega⟩

/-- Entering the `readInt` loop on a digit strictly advances. -/
theorem readInt_advance (l : Lexer) (h : ChInv l) (hd : goIsDigit l.ch = true) :
    ChInv (readInt l).2 ∧ (readInt l).2.input = l.input ∧
      l.position < (readInt l).2.position := by
  show ChInv (readIntF (l.input.length + 1) l) ∧
    (readIntF (l.input.length + 1) l).input = l.input ∧
    l.position < (readIntF (l.input.length + 1) l).position
  have hstep : readIntF (l.input.length + 1) l =
      readIntF l.input.length (readChar l) := by
    simp [readIntF, hd]
  rw [hstep]
  obtain ⟨h1, h2, h3⟩ := readIntF_state l.input.length (readChar l) (chinv_readChar l)
  have hp := readChar_position l h
  exact ⟨h1, h2, by omega⟩

/-- Entering the `readFloat` loop on a digit strictly advances. -/
theorem readFloat_advance (l : Lexer) (h : ChInv l) (hd : goIsDigit l.ch = true) :
    ChInv (readFloat l).2 ∧ (readFloat l).2.input = l.input ∧
      l.position < (readFloat l).2.position := by
  show ChInv (readFloatF (l.input.length + 1) l) ∧
    (readFloatF (l.input.length + 1) l).input = l.input ∧
    l.position < (readFloatF (l.input.length + 1) l).position
  have hstep : readFloatF (l.input.length + 1) l =
      readFloatF l.input.length (readChar l) := by
    simp [readFloatF, hd]
  rw [hstep]
  obtain ⟨h1, h2, h3⟩ := readFloatF_state l.input.length (readChar l) (chinv_readChar l)
  have hp := readChar_position l h
  exact ⟨h1, h2, by omega⟩

/-- Entering the `readIdentifier` loop on a letter strictly advances. -/
theorem readIdentifier_advance (l : Lexer) (h : ChInv l) (hd : goIsLetter l.ch = true) :
    ChInv (readIdentifier l).2 ∧ (readIdentifier l).2.input = l.input ∧
      l.position < (readIdentifier l).2.position := by
  show ChInv (readIdentifierF (l.input.length + 1) l) ∧
    (readIdentifierF (l.input.length + 1) l).input = l.input ∧
    l.position < (readIdentifierF (l.input.length + 1) l).position
  have hstep : readIdentifierF (l.input.length + 1) l =
      readIdentifierF l.input.length (readChar l) := by
    simp [readIdentifierF, hd]
  rw [hstep]
  obtain ⟨h1, h2, h3⟩ :=
    readIdentifierF_state l.input.length (readChar l) (chinv_readChar l)
  have hp := readChar_position l h
  exact ⟨h1, h2, by omega⟩

/-- Every `nextTokenAfterWS` branch preserves the invariant and the
input and strictly advances the cursor (the loop branches are entered
behind the guard byte, so the loop reads it at least once; the other
branches end in one `readChar`). -/
theorem nextTokenAfterWS_state (l : Lexer) (h : ChInv l) :
    ChInv (nextTokenAfterWS l).2 ∧ (nextTokenAfterWS l).2.input = l.input ∧
      l.position < (nextTokenAfterWS l).2.position := by
  have hrc : ChInv (readChar l) ∧ (readChar l).input = l.input ∧
      l.position < (readChar l).position :=
    ⟨chinv_readChar l, rfl, by have := readChar_position l h; omega⟩
  have hstring : ChInv (readChar (readStringF (l.input.length + 1) l)) ∧
      (readChar (readStringF (l.input.length + 1) l)).input = l.input ∧
      l.position < (readChar (readStringF (l.input.length + 1) l)).position := by
    obtain ⟨s1, s2, s3⟩ := readStringF_state l.input.length l h
    exact ⟨chinv_readChar _, s2, by have := readChar_position _ s1; omega⟩
  by_cases h1 : l.ch = '{'
  · rw [nextTokenAfterWS, if_pos h1]
    exact hrc
  by_cases h2 : l.ch = '}'
  · rw [nextTokenAfterWS, if_neg h1, if_pos h2]
    exact hrc
  by_cases h3 : l.ch = '('
  · rw [nextTokenAfterWS, if_neg h1, if_neg h2, if_pos h3]
    exact hrc
  by_cases h4 : l.ch = ')'
  · rw [nextTokenAfterWS, if_neg h1, if_neg h2, if_neg h3, if_pos h4]
    exact hrc
  by_cases h5 : l.ch = '['
  · rw [nextTokenAfterWS, if_neg h1, if_neg h2, if_neg h3, if_neg h4, if_pos h5]
    exact hrc
  by_cases h6 : l.ch = ']'
  · rw [nextTokenAfterWS, if_neg h1, if_neg h2, if_neg h3, if_neg h4, if_neg h5, if_pos h6]
    exact hrc
  by_cases h7 : l.ch = ':'
  · rw [nextTokenAfterWS, if_neg h1, if_neg h2, if_neg h3, if_neg h4, if_neg h5, if_neg h6, if_pos h7]
    exact hrc
  by_cases h8 : l.ch = ';'
  · rw [nextTokenAfterWS, if_neg h1, if_neg h2, if_neg h3, if_neg h4, if_neg h5, if_neg h6, if_neg h7, if_pos h8]
    exact hrc
  by_cases h9 : l.ch = ','
  · rw [nextTokenAfterWS, if_neg h1, if_neg h2, if_neg h3, if_neg h4, if_neg h5, if_neg h6, if_neg h7, if_neg h8, if_pos h9]
    exact hrc
  by_cases h10 : l.ch = '+'
  · rw [nextTokenAfterWS, if_neg h1, if_neg h2, if_neg h3, if_neg h4, if_neg h5, if_neg h6, if_neg h7, if_neg h8, if_neg h9, if_pos h10]
    exact hrc
  by_cases h11 : l.ch = '-'
  · rw [nextTokenAfterWS, if_neg h1, if_neg h2, if_neg h3, if_neg h4, if_neg h5, if_neg h6, if_neg h7, if_neg h8, if_neg h9, if_neg h10, if_pos h11]
    exact hrc
  by_cases h12 : l.ch = '*'
  · rw [nextTokenAfterWS, if_neg h1, if_neg h2, if_neg h3, if_neg h4, if_neg h5, if_neg h6, if_neg h7, if_neg h8, if_neg h9, if_neg h10, if_neg h11, if_pos h12]
    exact hrc
  by_cases h13 : l.ch = '/'
  · rw [nextTokenAfterWS, if_neg h1, if_neg h2, if_neg h3, if_neg h4, if_neg h5, if_neg h6, if_neg h7, if_neg h8, if_neg h9, if_neg h10, if_neg h11, if_neg h12, if_pos h13]
    exact hrc
  by_cases h14 : l.ch = '='
  · rw [nextTokenAfterWS, if_neg h1, if_neg h2, if_neg h3, if_neg h4, if_neg h5, if_neg h6, if_neg h7, if_neg h8, if_neg h9, if_neg h10, if_neg h11, if_neg h12, if_neg h13, if_pos h14]
    exact hrc
  by_cases h15 : l.ch = '>'
  · rw [nextTokenAfterWS, if_neg h1, if_neg h2, if_neg h3, if_neg h4, if_neg h5, if_neg h6, if_neg h7, if_neg h8, if_neg h9, if_neg h10, if_neg h11, if_neg h12, if_neg h13, if_neg h14, if_pos h15]
    exact hrc
  by_cases h16 : l.ch = '<'
  · rw [nextTokenAfterWS, if_neg h1, if_neg h2, if_neg h3, if_neg h4, if_neg h5, if_neg h6, if_neg h7, if_neg h8, if_neg h9, if_neg h10, if_neg h11, if_neg h12, if_neg h13, if_neg h14, if_neg h15, if_pos h16]
    exact hrc
  by_cases h17 : l.ch = '&'
  · rw [nextTokenAfterWS, if_neg h1, if_neg h2, if_neg h3, if_neg h4, if_neg h5, if_neg h6, if_neg h7, if_neg h8, if_neg h9, if_neg h10, if_neg h11, if_neg h12, if_neg h13, if_neg h14, if_neg h15, if_neg h16, if_pos h17]
    exact hrc
  by_cases h18 : l.ch = '|'
  · rw [nextTokenAfterWS, if_neg h1, if_neg h2, if_neg h3, if_neg h4, if_neg h5, if_neg h6, if_neg h7, if_neg h8, if_neg h9, if_neg h10, if_neg h11, if_neg h12, if_neg h13, if_neg h14, if_neg h15, if_neg h16, if_neg h17, if_pos h18]
    exact hrc
  by_cases h19 : l.ch = '"'
  · rw [nextTokenAfterWS, if_neg h1, if_neg h2, if_neg h3, if_neg h4, if_neg h5, if_neg h6, if_neg h7, if_neg h8, if_neg h9, if_neg h10, if_neg h11, if_neg h12, if_neg h13, if_neg h14, if_neg h15, if_neg h16, if_neg h17, if_neg h18, if_pos h19]
    exact hstring
  by_cases h20 : l.ch = charZero
  · rw [nextTokenAfterWS, if_neg h1, if_neg h2, if_neg h3, if_neg h4, if_neg h5, if_neg h6, if_neg h7, if_neg h8, if_neg h9, if_neg h10, if_neg h11, if_neg h12, if_neg h13, if_neg h14, if_neg h15, if_neg h16, if_neg h17, if_neg h18, if_neg h19, if_pos h20]
    exact hrc
  by_cases h21 : goIsDigit l.ch = true
  · rw [nextTokenAfterWS, if_neg h1, if_neg h2, if_neg h3, if_neg h4, if_neg h5, if_neg h6, if_neg h7, if_neg h8, if_neg h9, if_neg h10, if_neg h11, if_neg h12, if_neg h13, if_neg h14, if_neg h15, if_neg h16, if_neg h17, if_neg h18, if_neg h19, if_neg h20, if_pos h21]
    by_cases h22 : peekChar l = '.'
    · rw [if_pos h22]
      exact readFloat_advance l h h21
    · rw [if_neg h22]
      exact readInt_advance l h h21
  by_cases h23 : goIsLetter l.ch = true
  · rw [nextTokenAfterWS, if_neg h1, if_neg h2, if_neg h3, if_neg h4, if_neg h5, if_neg h6, if_neg h7, if_neg h8, if_neg h9, if_neg h10, if_neg h11, if_neg h12, if_neg h13, if_neg h14, if_neg h15, if_neg h16, if_neg h17, if_neg h18, if_neg h19, if_neg h20, if_neg h21, if_pos h23]
    exact readIdentifier_advance l h h23
  · rw [nextTokenAfterWS, if_neg h1, if_neg h2, if_neg h3, if_neg h4, if_neg h5, if_neg h6, if_neg h7, if_neg h8, if_neg h9, if_neg h10, if_neg h11, if_neg h12, if_neg h13, if_neg h14, if_neg h15, if_neg h16, if_neg h17, if_neg h18, if_neg h19, if_neg h20, if_neg h21, if_neg h23]
    exact hrc

/-- `NextToken` preserves the invariant and the input and strictly
advances the cursor. -/
theorem nextToken_state (l : Lexer) (h : ChInv l) :
    ChInv (NextToken l).2 ∧ (NextToken l).2.input = l.input ∧
      l.position < (NextToken l).2.position := by
  obtain ⟨s1, s2, s3⟩ := skipWhitespaceF_state (l.input.length + 1) l h
  obtain ⟨g1, g2, g3⟩ := nextTokenAfterWS_state (skipWhitespace l) s1
  refine ⟨g1, g2.trans s2, ?_⟩
  show l.position < (nextTokenAfterWS (skipWhitespace l)).2.position
  have hsw : (skipWhitespace l).position = (skipWhitespaceF (l.input.length + 1) l).position := rfl
  omega

/-- State facts after `k` calls to `NextToken`: the invariant and the
input persist and the cursor has advanced by at least `k`. -/
theorem stateStream_state (k : Nat) (l : Lexer) (h : ChInv l) :
    ChInv (stateStream l k) ∧ (stateStream l k).input = l.input ∧
      l.position + k ≤ (stateStream l k).position := by
  induction k generalizing l with
  | zero => exact ⟨h, rfl, by show l.position + 0 ≤ l.position; omega⟩
  | succ k ih =>
      simp only [stateStream]
      obtain ⟨n1, n2, n3⟩ := nextToken_state l h
      obtain ⟨s1, s2, s3⟩ := ih (NextToken l).2 n1
      exact ⟨s1, s2.trans n2, by omega⟩

/-- The `k`-th token is the first token of the `k`-th state. -/
theorem tokStream_eq (l : Lexer) (k : Nat) :
    tokStream l k = (NextToken (stateStream l k)).1 := by
  induction k generalizing l with
  | zero => rfl
  | succ k ih => exact ih (NextToken l).2

/-- The whitespace guard rejects the NUL sentinel. -/
theorem isWS_charZero : isWS charZero = false := by decide

/-- `skipWhitespace` is the identity when the current byte is not
whitespace. -/
theorem skipWhitespace_of_not_ws (l : Lexer) (hws : isWS l.ch = false) :
    skipWhitespace l = l := by
  unfold skipWhitespace
  simp [skipWhitespaceF, hws]

/-- Past the end of the input the cached byte is the NUL sentinel. -/
theorem chZero_of_len (l : Lexer) (h : ChInv l) (hlen : l.input.length ≤ l.position) :
    l.ch = charZero :=
  h.2.trans (List.getD_eq_default _ _ hlen)

/-- On a NUL-free input the NUL sentinel means the cursor is past the
end. -/
theorem len_le_of_ch_zero (l : Lexer) (h : ChInv l) (hn : NoNul l.input)
    (hch : l.ch = charZero) : l.input.length ≤ l.position := by
  by_contra hlt
  push_neg at hlt
  have hmem : l.input.getD l.position charZero ∈ l.input := by
    rw [List.getD_eq_getElem _ _ hlt]
    exact List.getElem_mem _
  exact hn _ hmem (h.2.symm.trans hch)

/-- The switch on the NUL sentinel: the EOF token, then one more
`readChar`. -/
theorem nextTokenAfterWS_zero (l : Lexer) (hch : l.ch = charZero) :
    nextTokenAfterWS l =
      ({ typ := EOF, literal := "EOF", loc := l.position }, readChar l) := by
  rw [nextTokenAfterWS, hch]
  rw [if_neg (by decide), if_neg (by decide), if_neg (by decide), if_neg (by decide),
      if_neg (by decide), if_neg (by decide), if_neg (by decide), if_neg (by decide),
      if_neg (by decide), if_neg (by decide), if_neg (by decide), if_neg (by decide),
      if_neg (by decide), if_neg (by decide), if_neg (by decide), if_neg (by decide),
      if_neg (by decide), if_neg (by decide), if_neg (by decide), if_pos rfl]

/-- A cursor past the end of the input produces an EOF token, and the
next state is one byte further with the same input. -/
theorem nextToken_eof_of_len (l : Lexer) (h : ChInv l)
    (hlen : l.input.length ≤ l.position) :
    (NextToken l).1.typ = EOF ∧ ChInv (NextToken l).2 ∧
      (NextToken l).2.input = l.input ∧
      (NextToken l).2.input.length ≤ (NextToken l).2.position := by
  have hch := chZero_of_len l h hlen
  have hskip := skipWhitespace_of_not_ws l (hch ▸ isWS_charZero)
  show (nextTokenAfterWS (skipWhitespace l)).1.typ = EOF ∧
    ChInv (nextTokenAfterWS (skipWhitespace l)).2 ∧
    (nextTokenAfterWS (skipWhitespace l)).2.input = l.input ∧
    (nextTokenAfterWS (skipWhitespace l)).2.input.length ≤
      (nextTokenAfterWS (skipWhitespace l)).2.position
  rw [hskip, nextTokenAfterWS_zero l hch]
  refine ⟨rfl, chinv_readChar l, rfl, ?_⟩
  have hp := readChar_position l h
  show l.input.length ≤ (readChar l).position
  omega

/-- Once past the end, every further token is EOF. -/
theorem eof_forever (l : Lexer) (k : Nat) (h : ChInv l)
    (hlen : l.input.length ≤ l.position) : (tokStream l k).typ = EOF := by
  rw [tokStream_eq]
  obtain ⟨s1, s2, s3⟩ := stateStream_state k l h
  exact (nextToken_eof_of_len _ s1 (by rw [s2]; omega)).1

/-- A keyword-or-`IDENT` token kind is never `EOF`. -/
theorem keywordType_ne_eof (s : String) :
    (match keywords.lookup s with
     | some kw => kw
     | none => IDENT) ≠ EOF := by
  have hmem : ∀ kw, keywords.lookup s = some kw → kw ≠ EOF := by
    intro kw hlk
    simp only [keywords, List.lookup] at hlk
    repeat' split at hlk
    all_goals first
      | exact Option.noConfusion hlk
      | (injection hlk with h; subst h; decide)
  cases hlk : keywords.lookup s with
  | none => decide
  | some kw => exact hmem kw hlk

/-- An EOF-typed result of the switch can only come from its NUL
branch. -/
theorem nextTokenAfterWS_eof_typ (l : Lexer)
    (h : (nextTokenAfterWS l).1.typ = EOF) : l.ch = charZero := by
  by_cases h1 : l.ch = '{'
  · rw [nextTokenAfterWS, if_pos h1] at h
    simp [charToken, LBRACE, RBRACE, LPAREN, RPAREN, LBRACKET, RBRACKET, COLON, SEMICOLON, COMMA, PLUS, MINUS, ASTERISK, SLASH, ASSIGN, GT, LT, EOF] at h
  by_cases h2 : l.ch = '}'
  · rw [nextTokenAfterWS, if_neg h1, if_pos h2] at h
    simp [charToken, LBRACE, RBRACE, LPAREN, RPAREN, LBRACKET, RBRACKET, COLON, SEMICOLON, COMMA, PLUS, MINUS, ASTERISK, SLASH, ASSIGN, GT, LT, EOF] at h
  by_cases h3 : l.ch = '('
  · rw [nextTokenAfterWS, if_neg h1, if_neg h2, if_pos h3] at h
    simp [charToken, LBRACE, RBRACE, LPAREN, RPAREN, LBRACKET, RBRACKET, COLON, SEMICOLON, COMMA, PLUS, MINUS, ASTERISK, SLASH, ASSIGN, GT, LT, EOF] at h
  by_cases h4 : l.ch = ')'
  · rw [nextTokenAfterWS, if_neg h1, if_neg h2, if_neg h3, if_pos h4] at h
    simp [charToken, LBRACE, RBRACE, LPAREN, RPAREN, LBRACKET, RBRACKET, COLON, SEMICOLON, COMMA, PLUS, MINUS, ASTERISK, SLASH, ASSIGN, GT, LT, EOF] at h
  by_cases h5 : l.ch = '['
  · rw [nextTokenAfterWS, if_neg h1, if_neg h2, if_neg h3, if_neg h4, if_pos h5] at h
    simp [charToken, LBRACE, RBRACE, LPAREN, RPAREN, LBRACKET, RBRACKET, COLON, SEMICOLON, COMMA, PLUS, MINUS, ASTERISK, SLASH, ASSIGN, GT, LT, EOF] at h
  by_cases h6 : l.ch = ']'
  · rw [nextTokenAfterWS, if_neg h1, if_neg h2, if_neg h3, if_neg h4, if_neg h5, if_pos h6] at h
    simp [charToken, LBRACE, RBRACE, LPAREN, RPAREN, LBRACKET, RBRACKET, COLON, SEMICOLON, COMMA, PLUS, MINUS, ASTERISK, SLASH, ASSIGN, GT, LT, EOF] at h
  by_cases h7 : l.ch = ':'
  · rw [nextTokenAfterWS, if_neg h1, if_neg h2, if_neg h3, if_neg h4, if_neg h5, if_neg h6, if_pos h7] at h
    simp [charToken, LBRACE, RBRACE, LPAREN, RPAREN, LBRACKET, RBRACKET, COLON, SEMICOLON, COMMA, PLUS, MINUS, ASTERISK, SLASH, ASSIGN, GT, LT, EOF] at h
  by_cases h8 : l.ch = ';'
  · rw [nextTokenAfterWS, if_neg h1, if_neg h2, if_neg h3, if_neg h4, if_neg h5, if_neg h6, if_neg h7, if_pos h8] at h
    simp [charToken, LBRACE, RBRACE, LPAREN, RPAREN, LBRACKET, RBRACKET, COLON, SEMICOLON, COMMA, PLUS, MINUS, ASTERISK, SLASH, ASSIGN, GT, LT, EOF] at h
  by_cases h9 : l.ch = ','
  · rw [nextTokenAfterWS, if_neg h1, if_neg h2, if_neg h3, if_neg h4, if_neg h5, if_neg h6, if_neg h7, if_neg h8, if_pos h9] at h
    simp [charToken, LBRACE, RBRACE, LPAREN, RPAREN, LBRACKET, RBRACKET, COLON, SEMICOLON, COMMA, PLUS, MINUS, ASTERISK, SLASH, ASSIGN, GT, LT, EOF] at h
  by_cases h10 : l.ch = '+'
  · rw [nextTokenAfterWS, if_neg h1, if_neg h2, if_neg h3, if_neg h4, if_neg h5, if_neg h6, if_neg h7, if_neg h8, if_neg h9, if_pos h10] at h
    simp [charToken, LBRACE, RBRACE, LPAREN, RPAREN, LBRACKET, RBRACKET, COLON, SEMICOLON, COMMA, PLUS, MINUS, ASTERISK, SLASH, ASSIGN, GT, LT, EOF] at h
  by_cases h11 : l.ch = '-'
  · rw [nextTokenAfterWS, if_neg h1, if_neg h2, if_neg h3, if_neg h4, if_neg h5, if_neg h6, if_neg h7, if_neg h8, if_neg h9, if_neg h10, if_pos h11] at h
    simp [charToken, LBRACE, RBRACE, LPAREN, RPAREN, LBRACKET, RBRACKET, COLON, SEMICOLON, COMMA, PLUS, MINUS, ASTERISK, SLASH, ASSIGN, GT, LT, EOF] at h
  by_cases h12 : l.ch = '*'
  · rw [nextTokenAfterWS, if_neg h1, if_neg h2, if_neg h3, if_neg h4, if_neg h5, if_neg h6, if_neg h7, if_neg h8, if_neg h9, if_neg h10, if_neg h11, if_pos h12] at h
    simp [charToken, LBRACE, RBRACE, LPAREN, RPAREN, LBRACKET, RBRACKET, COLON, SEMICOLON, COMMA, PLUS, MINUS, ASTERISK, SLASH, ASSIGN, GT, LT, EOF] at h
  by_cases h13 : l.ch = '/'
  · rw [nextTokenAfterWS, if_neg h1, if_neg h2, if_neg h3, if_neg h4, if_neg h5, if_neg h6, if_neg h7, if_neg h8, if_neg h9, if_neg h10, if_neg h11, if_neg h12, if_pos h13] at h
    simp [charToken, LBRACE, RBRACE, LPAREN, RPAREN, LBRACKET, RBRACKET, COLON, SEMICOLON, COMMA, PLUS, MINUS, ASTERISK, SLASH, ASSIGN, GT, LT, EOF] at h
  by_cases h14 : l.ch = '='
  · rw [nextTokenAfterWS, if_neg h1, if_neg h2, if_neg h3, if_neg h4, if_neg h5, if_neg h6, if_neg h7, if_neg h8, if_neg h9, if_neg h10, if_neg h11, if_neg h12, if_neg h13, if_pos h14] at h
    simp [charToken, LBRACE, RBRACE, LPAREN, RPAREN, LBRACKET, RBRACKET, COLON, SEMICOLON, COMMA, PLUS, MINUS, ASTERISK, SLASH, ASSIGN, GT, LT, EOF] at h
  by_cases h15 : l.ch = '>'
  · rw [nextTokenAfterWS, if_neg h1, if_neg h2, if_neg h3, if_neg h4, if_neg h5, if_neg h6, if_neg h7, if_neg h8, if_neg h9, if_neg h10, if_neg h11, if_neg h12, if_neg h13, if_neg h14, if_pos h15] at h
    simp [charToken, LBRACE, RBRACE, LPAREN, RPAREN, LBRACKET, RBRACKET, COLON, SEMICOLON, COMMA, PLUS, MINUS, ASTERISK, SLASH, ASSIGN, GT, LT, EOF] at h
  by_cases h16 : l.ch = '<'
  · rw [nextTokenAfterWS, if_neg h1, if_neg h2, if_neg h3, if_neg h4, if_neg h5, if_neg h6, if_neg h7, if_neg h8, if_neg h9, if_neg h10, if_neg h11, if_neg h12, if_neg h13, if_neg h14, if_neg h15, if_pos h16] at h
    simp [charToken, LBRACE, RBRACE, LPAREN, RPAREN, LBRACKET, RBRACKET, COLON, SEMICOLON, COMMA, PLUS, MINUS, ASTERISK, SLASH, ASSIGN, GT, LT, EOF] at h
  by_cases h17 : l.ch = '&'
  · rw [nextTokenAfterWS, if_neg h1, if_neg h2, if_neg h3, if_neg h4, if_neg h5, if_neg h6, if_neg h7, if_neg h8, if_neg h9, if_neg h10, if_neg h11, if_neg h12, if_neg h13, if_neg h14, if_neg h15, if_neg h16, if_pos h17] at h
    simp [charToken, AND, EOF] at h
  by_cases h18 : l.ch = '|'
  · rw [nextTokenAfterWS, if_neg h1, if_neg h2, if_neg h3, if_neg h4, if_neg h5, if_neg h6, if_neg h7, if_neg h8, if_neg h9, if_neg h10, if_neg h11, if_neg h12, if_neg h13, if_neg h14, if_neg h15, if_neg h16, if_neg h17, if_pos h18] at h
    simp [charToken, OR, EOF] at h
  by_cases h19 : l.ch = '"'
  · rw [nextTokenAfterWS, if_neg h1, if_neg h2, if_neg h3, if_neg h4, if_neg h5, if_neg h6, if_neg h7, if_neg h8, if_neg h9, if_neg h10, if_neg h11, if_neg h12, if_neg h13, if_neg h14, if_neg h15, if_neg h16, if_neg h17, if_neg h18, if_pos h19] at h
    simp [readString, STRING, EOF] at h
  by_cases h20 : l.ch = charZero
  · exact h20
  by_cases h21 : goIsDigit l.ch = true
  · rw [nextTokenAfterWS, if_neg h1, if_neg h2, if_neg h3, if_neg h4, if_neg h5, if_neg h6, if_neg h7, if_neg h8, if_neg h9, if_neg h10, if_neg h11, if_neg h12, if_neg h13, if_neg h14, if_neg h15, if_neg h16, if_neg h17, if_neg h18, if_neg h19, if_neg h20, if_pos h21] at h
    by_cases h22 : peekChar l = '.'
    · rw [if_pos h22] at h
      simp [readFloat, FLOAT, EOF] at h
    · rw [if_neg h22] at h
      simp [readInt, INT, EOF] at h
  by_cases h23 : goIsLetter l.ch = true
  · rw [nextTokenAfterWS, if_neg h1, if_neg h2, if_neg h3, if_neg h4, if_neg h5, if_neg h6, if_neg h7, if_neg h8, if_neg h9, if_neg h10, if_neg h11, if_neg h12, if_neg h13, if_neg h14, if_neg h15, if_neg h16, if_neg h17, if_neg h18, if_neg h19, if_neg h20, if_neg h21, if_pos h23] at h
    exact absurd h (keywordType_ne_eof _)
  · rw [nextTokenAfterWS, if_neg h1, if_neg h2, if_neg h3, if_neg h4, if_neg h5, if_neg h6, if_neg h7, if_neg h8, if_neg h9, if_neg h10, if_neg h11, if_neg h12, if_neg h13, if_neg h14, if_neg h15, if_neg h16, if_neg h17, if_neg h18, if_neg h19, if_neg h20, if_neg h21, if_neg h23] at h
    simp [EOF] at h

/-- After an EOF-typed `NextToken` on a NUL-free input, the next state
is past the end of the (unchanged) input. -/
theorem nextToken_eof_next_state (l : Lexer) (h : ChInv l) (hn : NoNul l.input)
    (heof : (NextToken l).1.typ = EOF) :
    ChInv (NextToken l).2 ∧ (NextToken l).2.input = l.input ∧
      (NextToken l).2.input.length ≤ (NextToken l).2.position := by
  obtain ⟨s1, s2, _⟩ := skipWhitespaceF_state (l.input.length + 1) l h
  have hch : (skipWhitespace l).ch = charZero :=
    nextTokenAfterWS_eof_typ (skipWhitespace l) heof
  have hn' : NoNul (skipWhitespace l).input := by
    show NoNul (skipWhitespaceF (l.input.length + 1) l).input
    rw [s2]; exact hn
  have hlen := len_le_of_ch_zero (skipWhitespace l) s1 hn' hch
  have heq : NextToken l =
      ({ typ := EOF, literal := "EOF", loc := (skipWhitespace l).position },
        readChar (skipWhitespace l)) :=
    nextTokenAfterWS_zero (skipWhitespace l) hch
  rw [heq]
  refine ⟨chinv_readChar _, s2, ?_⟩
  have hp : (readChar (skipWhitespace l)).position = (skipWhitespace l).position + 1 :=
    readChar_position _ s1
  have hi : (readChar (skipWhitespace l)).input.length = (skipWhitespace l).input.length := rfl
  show (readChar (skipWhitespace l)).input.length ≤ (readChar (skipWhitespace l)).position
  omega

/-- A digit byte differs from any non-digit byte. -/
theorem ne_of_digit (a c : Char) (hd : goIsDigit a = true)
    (hc : goIsDigit c = false) : a ≠ c :=
  fun he => Bool.noConfusion (hc.symm.trans (he ▸ hd))

/-- A digit byte is not whitespace. -/
theorem isWS_of_digit (c : Char) (hd : goIsDigit c = true) : isWS c = false := by
  have h1 := ne_of_digit c ' ' hd (by decide)
  have h2 := ne_of_digit c '\t' hd (by decide)
  have h3 := ne_of_digit c '\n' hd (by decide)
  have h4 := ne_of_digit c '\r' hd (by decide)
  simp [isWS, h1, h2, h3, h4]

/-- On a digit byte the switch takes the numeric branch, and the token
kind is decided by the single `peekChar` look-ahead after the *first*
digit: a dot there selects `readFloat`/`FLOAT`, anything else selects
`readInt`/`INT`. -/
theorem nextTokenAfterWS_digit (l : Lexer) (hd : goIsDigit l.ch = true) :
    nextTokenAfterWS l =
      if peekChar l = '.' then
        ({ typ := FLOAT, literal := (readFloat l).1,
           loc := (readFloat l).2.position }, (readFloat l).2)
      else
        ({ typ := INT, literal := (readInt l).1,
           loc := (readInt l).2.position }, (readInt l).2) := by
  rw [nextTokenAfterWS,
      if_neg (ne_of_digit l.ch '{' hd (by decide)),
      if_neg (ne_of_digit l.ch '}' hd (by decide)),
      if_neg (ne_of_digit l.ch '(' hd (by decide)),
      if_neg (ne_of_digit l.ch ')' hd (by decide)),
      if_neg (ne_of_digit l.ch '[' hd (by decide)),
      if_neg (ne_of_digit l.ch ']' hd (by decide)),
      if_neg (ne_of_digit l.ch ':' hd (by decide)),
      if_neg (ne_of_digit l.ch ';' hd (by decide)),
      if_neg (ne_of_digit l.ch ',' hd (by decide)),
      if_neg (ne_of_digit l.ch '+' hd (by decide)),
      if_neg (ne_of_digit l.ch '-' hd (by decide)),
      if_neg (ne_of_digit l.ch '*' hd (by decide)),
      if_neg (ne_of_digit l.ch '/' hd (by decide)),
      if_neg (ne_of_digit l.ch '=' hd (by decide)),
      if_neg (ne_of_digit l.ch '>' hd (by decide)),
      if_neg (ne_of_digit l.ch '<' hd (by decide)),
      if_neg (ne_of_digit l.ch '&' hd (by decide)),
      if_neg (ne_of_digit l.ch '|' hd (by decide)),
      if_neg (ne_of_digit l.ch '"' hd (by decide)),
      if_neg (ne_of_digit l.ch charZero hd (by decide)),
      if_pos hd]

end lexer

/-- C7 (counterexample): on the maximal digit run `12` of `12.5`, which
is immediately followed by a dot, `NextToken` does *not* return a
`FLOAT` token `12.5`: the dot look-ahead happens only after the first
digit, so the first token is `INT` with literal `12`, and the digits
after the dot later surface as their own `INT` token `5`. -/
theorem c7_counterexample_multidigit_float :
    (lexer.tokStream (lexer.New ['1', '2', '.', '5']) 0).typ = lexer.INT ∧
    (lexer.tokStream (lexer.New ['1', '2', '.', '5']) 0).literal = "12" ∧
    lexer.INT ≠ lexer.FLOAT ∧
    (lexer.tokStream (lexer.New ['1', '2', '.', '5']) 0).literal ≠ "12.5" ∧
    (lexer.tokStream (lexer.New ['1', '2', '.', '5']) 2).typ = lexer.INT ∧
    (lexer.tokStream (lexer.New ['1', '2', '.', '5']) 2).literal = "5" :=
  ⟨rfl, rfl, by decide, by decide, rfl, rfl⟩

/-- C7 (amended): when the cursor sits on an ASCII digit, `NextToken`
classifies the token by the single look-ahead byte right after that
*first* digit: a dot there yields a `FLOAT` token spanning `readFloat`,
anything else an `INT` token spanning `readInt` — regardless of where
the maximal digit run ends. -/
theorem c7_amended_digit_token (l : lexer.Lexer)
    (hd : lexer.goIsDigit l.ch = true) :
    (lexer.peekChar l = '.' →
      (lexer.NextToken l).1 =
        { typ := lexer.FLOAT, literal := (lexer.readFloat l).1,
          loc := (lexer.readFloat l).2.position }) ∧
    (¬lexer.peekChar l = '.' →
      (lexer.NextToken l).1 =
        { typ := lexer.INT, literal := (lexer.readInt l).1,
          loc := (lexer.readInt l).2.position }) := by
  have hws : lexer.skipWhitespace l = l :=
    lexer.skipWhitespace_of_not_ws l (lexer.isWS_of_digit _ hd)
  have h : lexer.NextToken l = lexer.nextTokenAfterWS l := by
    show lexer.nextTokenAfterWS (lexer.skipWhitespace l) = lexer.nextTokenAfterWS l
    rw [hws]
  rw [h, lexer.nextTokenAfterWS_digit l hd]
  constructor
  · intro hp
    rw [if_pos hp]
  · intro hp
    rw [if_neg hp]

/-- C7 witness: `1.5` (dot right after the first digit) lexes as one
`FLOAT` token `1.5`; `42` (no dot after the first digit) lexes as an
`INT` token `42`. -/
theorem c7_amended_digit_token_witness :
    lexer.goIsDigit (lexer.New ['1', '.', '5']).ch = true ∧
    (lexer.NextToken (lexer.New ['1', '.', '5'])).1.typ = lexer.FLOAT ∧
    (lexer.NextToken (lexer.New ['1', '.', '5'])).1.literal = "1.5" ∧
    (lexer.NextToken (lexer.New ['4', '2'])).1.typ = lexer.INT ∧
    (lexer.NextToken (lexer.New ['4', '2'])).1.literal = "42" := by
  have h1 := (c7_amended_digit_token (lexer.New ['1', '.', '5']) (by decide)).1 (by decide)
  have h2 := (c7_amended_digit_token (lexer.New ['4', '2']) (by decide)).2 (by decide)
  refine ⟨by decide, ?_, ?_, ?_, ?_⟩
  · rw [h1]
  · rw [h1]
    rfl
  · rw [h2]
  · rw [h2]
    rfl

/-- C8 (counterexample): with an interior NUL byte in the input,
`NextToken` returns an `EOF` token while input remains, and the very
next call returns a non-`EOF` (`IDENT`) token, so `EOF` is not
absorbing on arbitrary inputs. -/
theorem c8_counterexample_eof_after_nul :
    (lexer.tokStream (lexer.New [lexer.charZero, 'a']) 0).typ = lexer.EOF ∧
    (lexer.tokStream (lexer.New [lexer.charZero, 'a']) 1).typ = lexer.IDENT ∧
    lexer.IDENT ≠ lexer.EOF :=
  ⟨rfl, rfl, by decide⟩

/-- C8 (amended): on a NUL-free input, once `NextToken` has returned an
`EOF` token from a cursor-consistent state, every further token of the
stream is `EOF` again and the input is never extended. -/
theorem c8_amended_eof_stable_nul_free (l : lexer.Lexer) (k : Nat)
    (h : lexer.ChInv l) (hn : lexer.NoNul l.input)
    (heof : (lexer.NextToken l).1.typ = lexer.EOF) :
    (lexer.tokStream (lexer.NextToken l).2 k).typ = lexer.EOF := by
  obtain ⟨h2, _, e3⟩ := lexer.nextToken_eof_next_state l h hn heof
  exact lexer.eof_forever _ k h2 e3

/-- C8 witness: from the empty input the first token is `EOF` and the
stream still reads `EOF` three calls later. -/
theorem c8_amended_eof_stable_nul_free_witness :
    lexer.ChInv (lexer.New ([] : List Char)) ∧
    lexer.NoNul (lexer.New ([] : List Char)).input ∧
    (lexer.NextToken (lexer.New ([] : List Char))).1.typ = lexer.EOF ∧
    (lexer.tokStream (lexer.NextToken (lexer.New ([] : List Char))).2 3).typ = lexer.EOF := by
  refine ⟨by decide, by decide, rfl, ?_⟩
  exact c8_amended_eof_stable_nul_free (lexer.New []) 3 (by decide) (by decide) rfl

/-- C10: every `NextToken` call from a cursor-consistent state strictly
advances the cursor position, and after at most `input.length` calls
(one per byte) the token stream has reached `EOF`: tokenization of any
finite input terminates. -/
theorem c10_lexer_termination (l : lexer.Lexer) (k : Nat)
    (h : lexer.ChInv l) (hk : l.input.length ≤ k) :
    l.position < (lexer.NextToken l).2.position ∧
    (lexer.tokStream l k).typ = lexer.EOF := by
  refine ⟨(lexer.nextToken_state l h).2.2, ?_⟩
  rw [lexer.tokStream_eq]
  obtain ⟨s1, s2, s3⟩ := lexer.stateStream_state k l h
  refine (lexer.nextToken_eof_of_len _ s1 ?_).1
  rw [s2]
  omega

/-- C10 witness: lexing `ab` advances the cursor on the first call and
reaches `EOF` by the second token. -/
theorem c10_lexer_termination_witness :
    (lexer.New ['a', 'b']).input.length ≤ 2 ∧
    ((lexer.New ['a', 'b']).position <
        (lexer.NextToken (lexer.New ['a', 'b'])).2.position ∧
      (lexer.tokStream (lexer.New ['a', 'b']) 2).typ = lexer.EOF) :=
  ⟨by decide, c10_lexer_termination (lexer.New ['a', 'b']) 2 (by decide) (by decide)⟩
